import Mathlib

/-!
# HabiticaMagic: stat aggregation and daily-damage simulation

A shallow embedding of `dist/HabiticaMagic-v1.0.0.js` (classes
`HabiticaUserTasksManager` and `HabiticaUser`) together with theorems about it.

Conventions of the embedding:

* JavaScript numbers are elements of an arbitrary linearly ordered field `K` with a floor
  function (`ℚ` for evaluation, `ℝ` for analysis); arithmetic is exact.
  `Math.floor`, `Math.ceil`, `Math.round` and `Math.abs` are `⌊·⌋`, `⌈·⌉`, `⌊· + 1/2⌋` and `|·|`.
  The namespace `Binary64` repeats `calculateDailyStatsFor` and the stat getters over `ℚ`
  with the rounding of IEEE 754 doubles made explicit, for the places where the rounding
  changes the result.
* `Math.pow` is a built-in of the host language and is taken as a parameter `pow : K → K → K`.
* `for` loops over arrays are left folds over lists, with the loop-carried variables as state.
* Counters that start at `0` and are only incremented are natural numbers.
-/

namespace HabiticaMagic

/-! ## Data model -/

/-- One entry of `task.checklist`. -/
structure ChecklistItem where
  completed : Bool
deriving DecidableEq

/-- A task record of the task list (`this.apiData` of the tasks manager). The field `date` is
the instant (in milliseconds) denoted by `moment(task.date)`; `none` stands for a falsy
`task.date`. -/
structure Task (K : Type) where
  type : String
  isDue : Bool
  completed : Bool
  value : K
  priority : K
  checklist : List ChecklistItem
  date : Option Int

/-- The object `stats` built by `calculateDailyStatsFor`. -/
structure DailyStats (K : Type) where
  dueCount : Nat
  totalDamageToSelf : K
  dailyDamageToSelf : K
  bossDamage : K
  dailiesEvaded : Nat
deriving DecidableEq

/-- A record over the four attribute dimensions. -/
structure StatBlock (K : Type) where
  str : K
  con : K
  int : K
  per : K

/-- A resolved gear record (`content.gear.flat[...]`). -/
structure GearItem (K : Type) where
  str : K
  con : K
  int : K
  per : K
  klass : Option String
  specialClass : Option String

/-- The record `apiData.stats.buffs`. -/
structure Buffs (K : Type) where
  str : K
  con : K
  int : K
  per : K
  stealth : K

/-- The record `apiData.stats`; `className` is its field `class`. -/
structure UserStats (K : Type) where
  buffs : Buffs K
  str : K
  con : K
  int : K
  per : K
  lvl : K
  className : String

/-- The record `quest.data.boss`. -/
structure Boss (K : Type) where
  str : K

/-- The record `quest.data` (a resolved quest). -/
structure QuestData (K : Type) where
  boss : Option (Boss K)

/-- The record `apiData.party.quest`; `data` is `none` when it is `null` or missing. -/
structure Quest (K : Type) where
  data : Option (QuestData K)

/-- The user snapshot `apiData`: `equipped` is `items.gear.equipped` as the list of its
(key, item) entries in enumeration order, `quest` is `party.quest`. -/
structure ApiData (K : Type) where
  stats : UserStats K
  equipped : List (String × GearItem K)
  quest : Quest K

/-- The object returned by `_calculateStats`. -/
structure Stats (K : Type) where
  totals : StatBlock K
  armor : StatBlock K
  buffs : StatBlock K
  points : StatBlock K

/-- An instance of `HabiticaUser`; the field `stats` set by the constructor is the
function `HabiticaUser.stats` below. -/
structure HabiticaUser (K : Type) where
  apiData : ApiData K

/-- An instance of `HabiticaUserTasksManager`; `dailyStats` is `none` until
`calculateDailyStatsFor` has run. -/
structure HabiticaUserTasksManager (K : Type) where
  apiData : List (Task K)
  dailyStats : Option (DailyStats K)

section Definitions

variable {K : Type} [LinearOrderedField K] [FloorRing K]

/-! ## `HabiticaUser` -/

namespace HabiticaUser

/-- Getter `level`. -/
def level (u : HabiticaUser K) : K := u.apiData.stats.lvl

/-- Getter `className`. -/
def className (u : HabiticaUser K) : String := u.apiData.stats.className

/-- Getter `stealth`. -/
def stealth (u : HabiticaUser K) : K := u.apiData.stats.buffs.stealth

/-- Getter `armor`. -/
def armor (u : HabiticaUser K) : List (String × GearItem K) := u.apiData.equipped

/-- The test `this.className === item.klass || this.className === item.specialClass`. -/
def classBonusApplies (className : String) (item : GearItem K) : Bool :=
  decide (some className = item.klass) || decide (some className = item.specialClass)

/-- Body of the inner loop of `_calculateStats` for one dimension: `acc` is
`stats.armor[stat]`, `x` is `item[stat]`. -/
def addArmorStat (className : String) (item : GearItem K) (acc x : K) : K :=
  let acc := acc + x
  if classBonusApplies className item then acc + 0.5 * x else acc

/-- Body of the outer loop of `_calculateStats`: one equipped item, all four dimensions. -/
def addArmorItem (className : String) (acc : StatBlock K) (entry : String × GearItem K) :
    StatBlock K :=
  let item := entry.2
  { str := addArmorStat className item acc.str item.str
    con := addArmorStat className item acc.con item.con
    int := addArmorStat className item acc.int item.int
    per := addArmorStat className item acc.per item.per }

/-- Method `_calculateStats`. -/
def _calculateStats (u : HabiticaUser K) : Stats K :=
  let buffs : StatBlock K :=
    { str := u.apiData.stats.buffs.str
      con := u.apiData.stats.buffs.con
      int := u.apiData.stats.buffs.int
      per := u.apiData.stats.buffs.per }
  let points : StatBlock K :=
    { str := u.apiData.stats.str
      con := u.apiData.stats.con
      int := u.apiData.stats.int
      per := u.apiData.stats.per }
  let armor : StatBlock K :=
    u.armor.foldl (addArmorItem u.className) { str := 0, con := 0, int := 0, per := 0 }
  let levelBonus : K := (⌊u.level / 2⌋ : Int)
  let totals : StatBlock K :=
    { str := armor.str + buffs.str + points.str + levelBonus
      con := armor.con + buffs.con + points.con + levelBonus
      int := armor.int + buffs.int + points.int + levelBonus
      per := armor.per + buffs.per + points.per + levelBonus }
  { totals := totals, armor := armor, buffs := buffs, points := points }

/-- Field `stats`, assigned once by the constructor: `this.stats = this._calculateStats()`. -/
def stats (u : HabiticaUser K) : Stats K := u._calculateStats

/-- Getter `constitutionBonus`. -/
def constitutionBonus (u : HabiticaUser K) : K :=
  let bonus := 1 - (u.stats.totals.con / 250)
  if bonus < 0.1 then 0.1 else bonus

/-- Getter `quest`. -/
def quest (u : HabiticaUser K) : Quest K := u.apiData.quest

/-- Getter `isOnQuest`. -/
def isOnQuest (u : HabiticaUser K) : Bool :=
  if u.quest.data.isSome then true else false

/-- Getter `isOnBossQuest`. -/
def isOnBossQuest (u : HabiticaUser K) : Bool :=
  if u.isOnQuest && (u.quest.data.bind QuestData.boss).isSome then true else false

/-- The expression `user.quest.data.boss.str`; it is only evaluated under `isOnBossQuest`,
where both lookups succeed. -/
def questBossStr (u : HabiticaUser K) : K :=
  match u.quest.data.bind QuestData.boss with
  | some boss => boss.str
  | none => 0

end HabiticaUser

/-! ## `HabiticaUserTasksManager` -/

namespace HabiticaUserTasksManager

/-- Getter `taskList`. -/
def taskList (m : HabiticaUserTasksManager K) : List (Task K) := m.apiData

/-- Method `todosDueOnDate`: `dueDate` is the cutoff instant in milliseconds and
`taskTime.isBefore(dueDate)` is `<` on instants. The accumulator is `todos`. -/
def todosDueOnDate (m : HabiticaUserTasksManager K) (dueDate : Int) : List (Task K) :=
  m.taskList.foldl
    (fun todos task =>
      if task.type ≠ "todo" then todos
      else
        match task.date with
        | some taskTime => if taskTime < dueDate then todos ++ [task] else todos
        | none => todos)
    []

/-- The inner loop over `task.checklist` in `calculateDailyStatsFor`: every completed
entry subtracts `subtaskDamage` from `taskDamage`. -/
def checklistLoop (subtaskDamage : K) (checklist : List ChecklistItem) (taskDamage : K) : K :=
  checklist.foldl
    (fun taskDamage item => if item.completed then taskDamage - subtaskDamage else taskDamage)
    taskDamage

/-- The value of `taskDamage` after the first three assignments (lines 90 to 92): the task
value clamped to the caps and sent through the decay curve. -/
def rawTaskDamage (pow : K → K → K) (task : Task K) : K :=
  let min : K := -47.27
  let max : K := 21.27
  let taskDamage := if task.value < min then min else task.value
  let taskDamage := if taskDamage > max then max else taskDamage
  |pow 0.9747 taskDamage|

/-- The value of `taskDamage` after the checklist discount (lines 90 to 102). -/
def taskDamage (pow : K → K → K) (task : Task K) : K :=
  let taskDamage := rawTaskDamage pow task
  if task.checklist.length > 0 then
    let subtaskDamage := taskDamage / (task.checklist.length : K)
    checklistLoop subtaskDamage task.checklist taskDamage
  else taskDamage

/-- The expression `Math.round(damage * 10) / 10`. -/
def roundTenth (damage : K) : K := ((⌊damage * 10 + 1 / 2⌋ : Int) : K) / 10

/-- The expression `Math.ceil(x * 10) / 10`. -/
def ceilTenth (x : K) : K := ((⌈x * 10⌉ : Int) : K) / 10

/-- The loop-carried variables of the main loop of `calculateDailyStatsFor`. -/
structure LoopState (K : Type) where
  stats : DailyStats K
  stealthRemaining : K

/-- One iteration of the main loop of `calculateDailyStatsFor`. -/
def loopBody (pow : K → K → K) (user : HabiticaUser K) (s : LoopState K) (task : Task K) :
    LoopState K :=
  if task.type ≠ "daily" then s
  else if !task.isDue || task.completed then s
  else if s.stealthRemaining > 0 then
    { stealthRemaining := s.stealthRemaining - 1
      stats := { s.stats with dailiesEvaded := s.stats.dailiesEvaded + 1 } }
  else
    let taskDamage := taskDamage pow task
    let damage := taskDamage * user.constitutionBonus * task.priority * 2
    let stats :=
      { s.stats with
        dueCount := s.stats.dueCount + 1
        dailyDamageToSelf := s.stats.dailyDamageToSelf + roundTenth damage }
    if user.isOnBossQuest then
      let bossDamage := if task.priority < 1 then taskDamage * task.priority else taskDamage
      let bossDamage := bossDamage * user.questBossStr
      { s with stats := { stats with bossDamage := stats.bossDamage + bossDamage } }
    else { s with stats := stats }

/-- The state before the first iteration. -/
def initState (user : HabiticaUser K) : LoopState K :=
  { stats :=
      { dueCount := 0, totalDamageToSelf := 0, dailyDamageToSelf := 0, bossDamage := 0,
        dailiesEvaded := 0 }
    stealthRemaining := user.stealth }

/-- The state after the main loop has run over the whole task list. -/
def runLoop (pow : K → K → K) (user : HabiticaUser K) (tasks : List (Task K)) : LoopState K :=
  tasks.foldl (loopBody pow user) (initState user)

/-- The three assignments after the loop (lines 116 to 118). -/
def finish (stats : DailyStats K) : DailyStats K :=
  let stats := { stats with totalDamageToSelf := stats.dailyDamageToSelf + stats.bossDamage }
  let stats := { stats with totalDamageToSelf := ceilTenth stats.totalDamageToSelf }
  { stats with bossDamage := ceilTenth stats.bossDamage }

/-- Method `calculateDailyStatsFor`: the manager after `this.dailyStats = stats`. -/
def calculateDailyStatsFor (pow : K → K → K) (m : HabiticaUserTasksManager K)
    (user : HabiticaUser K) : HabiticaUserTasksManager K :=
  { m with dailyStats := some (finish (runLoop pow user m.taskList).stats) }

/-- The effect of the call `tasks.calculateDailyStatsFor(user)` on the two objects it can
reach: the manager gets its new `dailyStats`, and the user is returned as it was passed,
since the method assigns neither to `user` nor to any of its fields (`stealthRemaining` is a
local copy of `user.stealth`). -/
def calculateDailyStatsForEffect (pow : K → K → K)
    (objects : HabiticaUserTasksManager K × HabiticaUser K) :
    HabiticaUserTasksManager K × HabiticaUser K :=
  (calculateDailyStatsFor pow objects.1 objects.2, objects.2)

end HabiticaUserTasksManager

/-! ## Observing the run of the main loop -/

namespace HabiticaUserTasksManager

/-- The amount that the damage branch adds to `stats.dailyDamageToSelf` (lines 104, 105). -/
def selfContribution (pow : K → K → K) (user : HabiticaUser K) (task : Task K) : K :=
  roundTenth (taskDamage pow task * user.constitutionBonus * task.priority * 2)

/-- The amount that the damage branch adds to `stats.bossDamage` (lines 108 to 112);
nothing is added when the user is not on a boss quest. -/
def bossContribution (pow : K → K → K) (user : HabiticaUser K) (task : Task K) : K :=
  if user.isOnBossQuest then
    (if task.priority < 1 then taskDamage pow task * task.priority else taskDamage pow task) *
      user.questBossStr
  else 0

/-- The tasks on which an iteration of the main loop, started in state `s`, takes the
stealth branch: the iterations that increment `stats.dailiesEvaded`. -/
def evadedTasks (pow : K → K → K) (user : HabiticaUser K) :
    LoopState K → List (Task K) → List (Task K)
  | _, [] => []
  | s, task :: rest =>
    let s' := loopBody pow user s task
    (if s'.stats.dailiesEvaded = s.stats.dailiesEvaded + 1 then [task] else []) ++
      evadedTasks pow user s' rest

/-- The tasks on which an iteration of the main loop, started in state `s`, takes the
damage branch: the iterations that increment `stats.dueCount`. -/
def damagedTasks (pow : K → K → K) (user : HabiticaUser K) :
    LoopState K → List (Task K) → List (Task K)
  | _, [] => []
  | s, task :: rest =>
    let s' := loopBody pow user s task
    (if s'.stats.dueCount = s.stats.dueCount + 1 then [task] else []) ++
      damagedTasks pow user s' rest

end HabiticaUserTasksManager

/-! ## The four dimensions -/

/-- The keys of `stats.armor` and `stats.totals`. -/
inductive Dim where
  | str
  | con
  | int
  | per
deriving DecidableEq

/-- The lookup `block[stat]`. -/
def StatBlock.get (b : StatBlock K) : Dim → K
  | .str => b.str
  | .con => b.con
  | .int => b.int
  | .per => b.per

/-- The lookup `item[stat]`. -/
def GearItem.get (g : GearItem K) : Dim → K
  | .str => g.str
  | .con => g.con
  | .int => g.int
  | .per => g.per

/-- The lookup `apiData.stats.buffs[stat]`. -/
def Buffs.get (b : Buffs K) : Dim → K
  | .str => b.str
  | .con => b.con
  | .int => b.int
  | .per => b.per

/-- The lookup `apiData.stats[stat]` (allocated points). -/
def UserStats.get (b : UserStats K) : Dim → K
  | .str => b.str
  | .con => b.con
  | .int => b.int
  | .per => b.per

/-! ## The specification, in its own words -/

namespace Spec

/-- Scope filter of the simulator: `type == daily AND isDue == true AND completed == false`. -/
def inScope (task : Task K) : Bool :=
  decide (task.type = "daily") && task.isDue && !task.completed

/-- The due, incomplete dailies of a task list, in list order. -/
def dueIncompleteDailies (tasks : List (Task K)) : List (Task K) :=
  tasks.filter inScope

/-- The number of dailies that a stealth count lets the player evade: the count itself when
it is a non-negative integer, and its ceiling, cut off at zero, in general. -/
def stealthCapacity (stealth : K) : Nat := ⌈stealth⌉₊

/-- The due, incomplete dailies that are not evaded: all but the first `stealthCapacity`. -/
def damagedDailies (stealth : K) (tasks : List (Task K)) : List (Task K) :=
  (dueIncompleteDailies tasks).drop (stealthCapacity stealth)

/-- The function `clamp(v, min, max)`. -/
def clamp (v lo hi : K) : K := max lo (min v hi)

/-- The task value with the caps applied: `clamp(task.value, min=-47.27, max=21.27)`. -/
def clampValue (v : K) : K := clamp v (-47.27) 21.27

/-- The decay curve `rawDamage = |0.9747^v|` at the clamped task value. -/
def rawDamage (pow : K → K → K) (value : K) : K := |pow 0.9747 (clampValue value)|

/-- The number of completed entries of a checklist. -/
def completedCount (checklist : List ChecklistItem) : Nat :=
  checklist.countP (fun item => item.completed)

/-- The task damage after the checklist discount: with a non-empty checklist, `rawDamage`
less `rawDamage / checklistLength` for every completed entry. -/
def taskDamage (pow : K → K → K) (task : Task K) : K :=
  if task.checklist.isEmpty then rawDamage pow task.value
  else
    rawDamage pow task.value -
      (completedCount task.checklist : K) *
        (rawDamage pow task.value / (task.checklist.length : K))

/-- Rounding to the nearest tenth: `round(x, 1 decimal place)`. -/
def roundToTenth (x : K) : K := ((round (x * 10) : Int) : K) / 10

/-- The contribution of one damaged daily to `dailyDamageToSelf`:
`round(taskDamage * constitutionBonus * priority * 2, 1)`. -/
def selfDamage (pow : K → K → K) (constitutionBonus : K) (task : Task K) : K :=
  roundToTenth (taskDamage pow task * constitutionBonus * task.priority * 2)

/-- The test that a gear item is restricted to the class of the user, by its class or by
its special class. -/
def classMatches (className : String) (g : GearItem K) : Bool :=
  decide (g.klass = some className) || decide (g.specialClass = some className)

/-- The armor bonus in one dimension: the sum of `g[d]` over the equipped items plus
`0.5 * g[d]` for every class-matched item. -/
def armorSum (className : String) (gear : List (GearItem K)) (d : Dim) : K :=
  (gear.map (fun g => g.get d)).sum +
    ((gear.filter (classMatches className)).map (fun g => 0.5 * g.get d)).sum

/-- The todo filter: type `todo`, a due date present, and that date strictly before the
cutoff. -/
def todoDueBefore (cutoff : Int) (task : Task K) : Bool :=
  decide (task.type = "todo") &&
    (match task.date with
     | some due => decide (due < cutoff)
     | none => false)

end Spec

/-- A task with its value replaced by the clamped value. -/
def Task.withClampedValue (task : Task K) : Task K :=
  { task with value := Spec.clampValue task.value }

end Definitions

/-! ## The same method in double precision

JavaScript numbers are IEEE 754 binary64 values and every arithmetic operation returns the
correctly rounded result. Where the exact model and the running code can differ, the method
is evaluated again with that rounding made explicit: a double is the rational number it
denotes, and `toBinary64` rounds an exact result to the nearest double, ties to even
(normal range, no overflow). The numbers of the inputs are taken to be doubles already. -/

namespace Binary64

/-- The number of halvings that bring `n` below `2`, that is `⌊log₂ n⌋` for `n ≥ 1`,
when `fuel` is at least that number. -/
def log2Aux : Nat → Nat → Nat
  | 0, _ => 0
  | fuel + 1, n => if n < 2 then 0 else log2Aux fuel (n / 2) + 1

/-- The binary exponent of a non-zero rational: the `e` with `2 ^ e ≤ |x| < 2 ^ (e + 1)`. -/
def exponent (x : ℚ) : ℤ :=
  let e0 : ℤ := (log2Aux x.num.natAbs x.num.natAbs : ℤ) - (log2Aux x.den x.den : ℤ)
  if (2 : ℚ) ^ e0 ≤ |x| then e0 else e0 - 1

/-- Rounding to the nearest integer, ties to the even one. -/
def roundTiesToEven (x : ℚ) : ℤ :=
  let f := ⌊x⌋
  let r := x - f
  if r < 1 / 2 then f else if 1 / 2 < r then f + 1 else if f % 2 = 0 then f else f + 1

/-- The double nearest to `x`: 53 significant bits, ties to even. -/
def toBinary64 (x : ℚ) : ℚ :=
  if x = 0 then 0
  else
    let ulp : ℚ := 2 ^ (exponent x - 52)
    roundTiesToEven (x / ulp) * ulp

/-- The inner loop over `task.checklist`, each subtraction rounded. -/
def checklistLoop (subtaskDamage : ℚ) (checklist : List ChecklistItem) (taskDamage : ℚ) : ℚ :=
  checklist.foldl
    (fun taskDamage item =>
      if item.completed then toBinary64 (taskDamage - subtaskDamage) else taskDamage)
    taskDamage

/-- The value of `taskDamage` after the checklist discount (lines 90 to 102), in doubles. -/
def taskDamage (pow : ℚ → ℚ → ℚ) (task : Task ℚ) : ℚ :=
  let min : ℚ := toBinary64 (-47.27)
  let max : ℚ := toBinary64 21.27
  let taskDamage := if task.value < min then min else task.value
  let taskDamage := if taskDamage > max then max else taskDamage
  let taskDamage := |toBinary64 (pow (toBinary64 0.9747) taskDamage)|
  if task.checklist.length > 0 then
    let subtaskDamage := toBinary64 (taskDamage / (task.checklist.length : ℚ))
    checklistLoop subtaskDamage task.checklist taskDamage
  else taskDamage

/-- The value of `taskDamage` after the first three assignments (lines 90 to 92), in
doubles. -/
def rawTaskDamage (pow : ℚ → ℚ → ℚ) (task : Task ℚ) : ℚ :=
  let min : ℚ := toBinary64 (-47.27)
  let max : ℚ := toBinary64 21.27
  let taskDamage := if task.value < min then min else task.value
  let taskDamage := if taskDamage > max then max else taskDamage
  |toBinary64 (pow (toBinary64 0.9747) taskDamage)|

/-- Body of the inner loop of `_calculateStats` for one dimension, in doubles. -/
def addArmorStat (className : String) (item : GearItem ℚ) (acc x : ℚ) : ℚ :=
  let acc := toBinary64 (acc + x)
  if HabiticaUser.classBonusApplies className item then
    toBinary64 (acc + toBinary64 (0.5 * x))
  else acc

/-- Body of the outer loop of `_calculateStats`, in doubles. -/
def addArmorItem (className : String) (acc : StatBlock ℚ) (entry : String × GearItem ℚ) :
    StatBlock ℚ :=
  let item := entry.2
  { str := addArmorStat className item acc.str item.str
    con := addArmorStat className item acc.con item.con
    int := addArmorStat className item acc.int item.int
    per := addArmorStat className item acc.per item.per }

/-- Method `_calculateStats`, in doubles. -/
def _calculateStats (u : HabiticaUser ℚ) : Stats ℚ :=
  let buffs : StatBlock ℚ :=
    { str := u.apiData.stats.buffs.str
      con := u.apiData.stats.buffs.con
      int := u.apiData.stats.buffs.int
      per := u.apiData.stats.buffs.per }
  let points : StatBlock ℚ :=
    { str := u.apiData.stats.str
      con := u.apiData.stats.con
      int := u.apiData.stats.int
      per := u.apiData.stats.per }
  let armor : StatBlock ℚ :=
    u.armor.foldl (addArmorItem u.className) { str := 0, con := 0, int := 0, per := 0 }
  let levelBonus : ℚ := (⌊toBinary64 (u.level / 2)⌋ : Int)
  let totals : StatBlock ℚ :=
    { str := toBinary64 (toBinary64 (toBinary64 (armor.str + buffs.str) + points.str) +
        levelBonus)
      con := toBinary64 (toBinary64 (toBinary64 (armor.con + buffs.con) + points.con) +
        levelBonus)
      int := toBinary64 (toBinary64 (toBinary64 (armor.int + buffs.int) + points.int) +
        levelBonus)
      per := toBinary64 (toBinary64 (toBinary64 (armor.per + buffs.per) + points.per) +
        levelBonus) }
  { totals := totals, armor := armor, buffs := buffs, points := points }

/-- Getter `constitutionBonus`, in doubles. -/
def constitutionBonus (u : HabiticaUser ℚ) : ℚ :=
  let bonus := toBinary64 (1 - toBinary64 ((_calculateStats u).totals.con / 250))
  if bonus < toBinary64 0.1 then toBinary64 0.1 else bonus

/-- The expression `Math.round(damage * 10) / 10`, in doubles. -/
def roundTenth (damage : ℚ) : ℚ :=
  toBinary64 (((⌊toBinary64 (damage * 10) + 1 / 2⌋ : Int) : ℚ) / 10)

/-- The expression `Math.ceil(x * 10) / 10`, in doubles. -/
def ceilTenth (x : ℚ) : ℚ := toBinary64 (((⌈toBinary64 (x * 10)⌉ : Int) : ℚ) / 10)

/-- One iteration of the main loop of `calculateDailyStatsFor`, in doubles; the
constitution bonus is the double that the getter returns, `isOnBossQuest` and
`quest.data.boss.str` are plain reads of the snapshot. -/
def loopBody (pow : ℚ → ℚ → ℚ) (user : HabiticaUser ℚ)
    (s : HabiticaUserTasksManager.LoopState ℚ) (task : Task ℚ) :
    HabiticaUserTasksManager.LoopState ℚ :=
  if task.type ≠ "daily" then s
  else if !task.isDue || task.completed then s
  else if s.stealthRemaining > 0 then
    { stealthRemaining := toBinary64 (s.stealthRemaining - 1)
      stats := { s.stats with dailiesEvaded := s.stats.dailiesEvaded + 1 } }
  else
    let taskDamage := taskDamage pow task
    let damage :=
      toBinary64 (toBinary64 (toBinary64 (taskDamage * constitutionBonus user) *
        task.priority) * 2)
    let stats :=
      { s.stats with
        dueCount := s.stats.dueCount + 1
        dailyDamageToSelf := toBinary64 (s.stats.dailyDamageToSelf + roundTenth damage) }
    if user.isOnBossQuest then
      let bossDamage :=
        if task.priority < 1 then toBinary64 (taskDamage * task.priority) else taskDamage
      let bossDamage := toBinary64 (bossDamage * user.questBossStr)
      { s with stats := { stats with bossDamage := toBinary64 (stats.bossDamage + bossDamage) } }
    else { s with stats := stats }

/-- The three assignments after the loop (lines 116 to 118), in doubles. -/
def finish (stats : DailyStats ℚ) : DailyStats ℚ :=
  let stats :=
    { stats with totalDamageToSelf := toBinary64 (stats.dailyDamageToSelf + stats.bossDamage) }
  let stats := { stats with totalDamageToSelf := ceilTenth stats.totalDamageToSelf }
  { stats with bossDamage := ceilTenth stats.bossDamage }

/-- Method `calculateDailyStatsFor`, in doubles. -/
def calculateDailyStatsFor (pow : ℚ → ℚ → ℚ) (m : HabiticaUserTasksManager ℚ)
    (user : HabiticaUser ℚ) : HabiticaUserTasksManager ℚ :=
  { m with
    dailyStats :=
      some (finish
        (m.taskList.foldl (loopBody pow user)
          (HabiticaUserTasksManager.initState user)).stats) }

/-- The real numbers whose nearest double is `1`: those strictly between the midpoint to
the double below `1`, which is `1 - 2^-54`, and the midpoint to the double above `1`, which
is `1 + 2^-53`. -/
def roundsToOne (r : ℝ) : Prop := 1 - 1 / 2 ^ 54 < r ∧ r < 1 + 1 / 2 ^ 53

end Binary64

/-! ## Sample inputs -/

namespace Sample

/-- A stand-in for `Math.pow` that is constantly `1`; it agrees with `Math.pow` at
exponent `0`. -/
def powStub : ℚ → ℚ → ℚ := fun _ _ => 1

/-- A level 0 user of class rogue without gear, with the given stealth count, allocated
constitution and quest. -/
def userWith (stealth con : ℚ) (quest : Quest ℚ) : HabiticaUser ℚ :=
  { apiData :=
      { stats :=
          { buffs := { str := 0, con := 0, int := 0, per := 0, stealth := stealth }
            str := 0, con := con, int := 0, per := 0, lvl := 0, className := "rogue" }
        equipped := []
        quest := quest } }

/-- A user without stealth, constitution or quest. -/
def plainUser : HabiticaUser ℚ := userWith 0 0 { data := none }

/-- A user with one point of stealth. -/
def stealthyUser : HabiticaUser ℚ := userWith 1 0 { data := none }

/-- A user with total constitution 250. -/
def sturdyUser : HabiticaUser ℚ := userWith 0 250 { data := none }

/-- A user on a boss quest whose boss has strength 1. -/
def bossUser : HabiticaUser ℚ := userWith 0 0 { data := some { boss := some { str := 1 } } }

/-- A due, incomplete daily. -/
def daily (value priority : ℚ) (checklist : List ChecklistItem) : Task ℚ :=
  { type := "daily", isDue := true, completed := false, value := value, priority := priority,
    checklist := checklist, date := none }

/-- A daily at the upper value cap. -/
def capDaily : Task ℚ := daily 21.27 1 []

/-- A daily of value 0 whose three checklist entries are all completed. -/
def checkedDaily : Task ℚ := daily 0 1 [⟨true⟩, ⟨true⟩, ⟨true⟩]

/-- A daily far below the lower value cap. -/
def neglectedDaily : Task ℚ := daily (-100) 1 []

/-- A habit that is flagged due and incomplete. -/
def habit : Task ℚ :=
  { type := "habit", isDue := true, completed := false, value := -3, priority := 2,
    checklist := [], date := none }

/-- A daily of value 0 with three checklist entries, two of them completed. -/
def partlyCheckedDaily : Task ℚ := daily 0 1 [⟨true⟩, ⟨false⟩, ⟨true⟩]

/-- A gear item for rogues with strength 2 and perception 1. -/
def dagger : GearItem ℚ :=
  { str := 2, con := 0, int := 0, per := 1, klass := some "rogue", specialClass := none }

/-- A gear item for warriors with constitution 3. -/
def shield : GearItem ℚ :=
  { str := 0, con := 3, int := 0, per := 0, klass := some "warrior", specialClass := none }

/-- A level 0 user of class rogue with the given equipped gear. -/
def gearedUser (equipped : List (String × GearItem ℚ)) : HabiticaUser ℚ :=
  { apiData :=
      { stats :=
          { buffs := { str := 0, con := 0, int := 0, per := 0, stealth := 0 }
            str := 0, con := 0, int := 0, per := 0, lvl := 0, className := "rogue" }
        equipped := equipped
        quest := { data := none } } }

/-- A user on a quest that has no boss. -/
def collectionQuestUser : HabiticaUser ℚ := userWith 0 0 { data := some { boss := none } }

/-- A gear item for warriors whose strength is the double nearest to `x`. -/
def fractionalGear (x : ℚ) : GearItem ℚ :=
  { str := Binary64.toBinary64 x, con := 0, int := 0, per := 0, klass := some "warrior",
    specialClass := none }

/-- A rogue wearing three warrior items with strengths 0.1, 0.2 and 0.3 (as doubles). -/
def fractionalUser : HabiticaUser ℚ :=
  gearedUser
    [("weapon", fractionalGear (1 / 10)), ("armor", fractionalGear (2 / 10)),
      ("head", fractionalGear (3 / 10))]

/-- The equipped entries of `fractionalUser` in the opposite order. -/
def reversedGear : List (String × GearItem ℚ) :=
  [("head", fractionalGear (3 / 10)), ("armor", fractionalGear (2 / 10)),
    ("weapon", fractionalGear (1 / 10))]

/-- A daily of value 0 and priority `10^16` whose nine checklist entries are all
completed. -/
def heavyCheckedDaily : Task ℚ := daily 0 (10 ^ 16) (List.replicate 9 ⟨true⟩)

/-- A daily whose value is the double nearest to `10^-17`. -/
def barelyValuedDaily : Task ℚ := daily (Binary64.toBinary64 (1 / 10 ^ 17)) 1 []

/-- A daily of value 0. -/
def freshDaily : Task ℚ := daily 0 1 []

/-- A todo with the given due instant. -/
def todo (date : Option Int) : Task ℚ :=
  { type := "todo", isDue := false, completed := false, value := 0, priority := 1,
    checklist := [], date := date }

end Sample

/-! ## Lemmas that do not depend on the arithmetic -/

section PlainLemmas

variable {K : Type}

/-- The class test of the code is the class test of the specification. -/
theorem classBonusApplies_eq (className : String) (item : GearItem K) :
    HabiticaUser.classBonusApplies className item = Spec.classMatches className item := by
  unfold HabiticaUser.classBonusApplies Spec.classMatches
  simp only [eq_comm]

/-- The loop of `todosDueOnDate`, started with any accumulator, appends the filtered list. -/
theorem foldl_todos (dueDate : Int) (tasks : List (Task K)) :
    ∀ todos : List (Task K),
      tasks.foldl
        (fun todos task =>
          if task.type ≠ "todo" then todos
          else
            match task.date with
            | some taskTime => if taskTime < dueDate then todos ++ [task] else todos
            | none => todos)
        todos = todos ++ tasks.filter (Spec.todoDueBefore dueDate) := by
  induction tasks with
  | nil => intro todos; simp
  | cons t ts ih =>
    intro todos
    rw [List.foldl_cons, ih]
    by_cases hty : t.type = "todo"
    · cases hd : t.date with
      | none => simp [Spec.todoDueBefore, List.filter_cons, hty, hd]
      | some due =>
        by_cases hlt : due < dueDate
        · simp [Spec.todoDueBefore, List.filter_cons, hty, hd, hlt]
        · simp [Spec.todoDueBefore, List.filter_cons, hty, hd, hlt]
    · simp [Spec.todoDueBefore, List.filter_cons, hty]

/-- The method `todosDueOnDate` is the todo filter of the specification. -/
theorem todosDueOnDate_eq (m : HabiticaUserTasksManager K) (cutoff : Int) :
    m.todosDueOnDate cutoff = m.taskList.filter (Spec.todoDueBefore cutoff) := by
  unfold HabiticaUserTasksManager.todosDueOnDate
  rw [foldl_todos]
  simp

end PlainLemmas

/-! ## Lemmas on the arithmetic of one task -/

section FieldLemmas

variable {K : Type} [LinearOrderedField K]

open HabiticaUserTasksManager

/-- The armor loop, started with any accumulator, adds the armor sum of the
specification in every dimension. -/
theorem foldl_addArmorItem (className : String) (entries : List (String × GearItem K))
    (acc : StatBlock K) (d : Dim) :
    (entries.foldl (HabiticaUser.addArmorItem className) acc).get d =
      acc.get d + Spec.armorSum className (entries.map Prod.snd) d := by
  induction entries generalizing acc with
  | nil => simp [Spec.armorSum]
  | cons e es ih =>
    rw [List.foldl_cons, ih]
    have hstep : (HabiticaUser.addArmorItem className acc e).get d =
        acc.get d + e.2.get d +
          (if Spec.classMatches className e.2 then 0.5 * e.2.get d else 0) := by
      cases d <;>
        by_cases hm : Spec.classMatches className e.2 = true <;>
        simp [HabiticaUser.addArmorItem, HabiticaUser.addArmorStat, StatBlock.get,
          GearItem.get, classBonusApplies_eq, hm]
    rw [hstep]
    by_cases hm : Spec.classMatches className e.2 = true
    · simp [Spec.armorSum, List.filter_cons, hm]
      ring
    · simp [Spec.armorSum, List.filter_cons, hm]
      ring

/-- The checklist loop subtracts the share once per completed entry. -/
theorem checklistLoop_eq (sub : K) (checklist : List ChecklistItem) (td : K) :
    checklistLoop sub checklist td = td - (Spec.completedCount checklist : K) * sub := by
  unfold checklistLoop Spec.completedCount
  induction checklist generalizing td with
  | nil => simp
  | cons c cs ih =>
    rw [List.foldl_cons, ih]
    cases hc : c.completed with
    | false => simp [hc]
    | true =>
      simp [hc, List.countP_cons_of_pos]
      ring

/-- The two conditional assignments of lines 90 and 91 compute the clamp. -/
theorem clamp_code_eq (v : K) :
    (if (if v < (-47.27 : K) then (-47.27 : K) else v) > (21.27 : K) then (21.27 : K)
      else (if v < (-47.27 : K) then (-47.27 : K) else v)) = Spec.clampValue v := by
  unfold Spec.clampValue Spec.clamp
  have hlohi : (-47.27 : K) < 21.27 := by norm_num
  by_cases h1 : v < (-47.27 : K)
  · have h2 : ¬ ((-47.27 : K) > 21.27) := by norm_num
    rw [if_pos h1, if_neg h2, min_eq_left (by linarith), max_eq_left h1.le]
  · rw [if_neg h1]
    by_cases h2 : v > (21.27 : K)
    · rw [if_pos h2, min_eq_right h2.le, max_eq_right hlohi.le]
    · rw [if_neg h2, min_eq_left (not_lt.mp h2), max_eq_right (not_lt.mp h1)]

/-- Clamping is idempotent. -/
theorem clampValue_idem (v : K) : Spec.clampValue (Spec.clampValue v) = Spec.clampValue v := by
  unfold Spec.clampValue Spec.clamp
  have hlohi : (-47.27 : K) ≤ 21.27 := by norm_num
  rw [min_eq_left (max_le hlohi (min_le_right _ _)), max_eq_right (le_max_left _ _)]

theorem rawTaskDamage_eq (pow : K → K → K) (task : Task K) :
    rawTaskDamage pow task = Spec.rawDamage pow task.value := by
  unfold rawTaskDamage Spec.rawDamage
  simp only []
  rw [clamp_code_eq]

theorem taskDamage_eq (pow : K → K → K) (task : Task K) :
    taskDamage pow task = Spec.taskDamage pow task := by
  unfold taskDamage Spec.taskDamage
  simp only [rawTaskDamage_eq, checklistLoop_eq]
  cases hcl : task.checklist with
  | nil => simp
  | cons c cs => simp

/-- The task damage only depends on the clamped value. -/
theorem taskDamage_withClampedValue (pow : K → K → K) (task : Task K) :
    taskDamage pow task.withClampedValue = taskDamage pow task := by
  rw [taskDamage_eq, taskDamage_eq]
  simp [Spec.taskDamage, Spec.rawDamage, Task.withClampedValue, clampValue_idem]

/-- In exact arithmetic a non-empty checklist with every entry completed brings the task
damage down to zero. -/
theorem taskDamage_eq_zero_of_all_completed (pow : K → K → K) (task : Task K)
    (hne : task.checklist ≠ [])
    (hall : ∀ item ∈ task.checklist, item.completed = true) :
    taskDamage pow task = 0 := by
  rw [taskDamage_eq]
  unfold Spec.taskDamage Spec.completedCount
  have hcount : task.checklist.countP (fun item => item.completed) = task.checklist.length :=
    List.countP_eq_length.mpr hall
  have hlen : (task.checklist.length : K) ≠ 0 :=
    Nat.cast_ne_zero.mpr (fun h => hne (List.length_eq_zero.mp h))
  have hemp : task.checklist.isEmpty = false := by
    cases hcl : task.checklist with
    | nil => exact absurd hcl hne
    | cons c cs => rfl
  rw [hemp, hcount]
  field_simp

/-- The boss contribution of a damaged task for a user whose quest has a boss of
strength `S`. -/
theorem bossContribution_of_quest (pow : K → K → K) (user : HabiticaUser K) (S : K)
    (hq : user.quest = { data := some { boss := some { str := S } } }) (task : Task K) :
    bossContribution pow user task = taskDamage pow task * min task.priority 1 * S := by
  have hb : user.isOnBossQuest = true := by
    simp [HabiticaUser.isOnBossQuest, HabiticaUser.isOnQuest, hq]
  have hstr : user.questBossStr = S := by simp [HabiticaUser.questBossStr, hq]
  unfold bossContribution
  rw [if_pos hb, hstr]
  by_cases hp : task.priority < 1
  · rw [if_pos hp, min_eq_left hp.le]
  · rw [if_neg hp, min_eq_right (not_lt.mp hp), mul_one]

end FieldLemmas

/-! ## Lemmas on the main loop -/

section LoopLemmas

variable {K : Type} [LinearOrderedField K] [FloorRing K]

open HabiticaUserTasksManager

theorem roundTenth_eq (x : K) : roundTenth x = Spec.roundToTenth x := by
  unfold roundTenth Spec.roundToTenth
  rw [round_eq]

theorem selfContribution_eq (pow : K → K → K) (user : HabiticaUser K) (task : Task K) :
    selfContribution pow user task = Spec.selfDamage pow user.constitutionBonus task := by
  unfold selfContribution Spec.selfDamage
  rw [roundTenth_eq, taskDamage_eq]

/-- A task outside the scope filter leaves the loop state as it is. -/
theorem loopBody_of_not_inScope (pow : K → K → K) (user : HabiticaUser K) (s : LoopState K)
    (task : Task K) (h : Spec.inScope task = false) : loopBody pow user s task = s := by
  unfold loopBody
  simp only [Spec.inScope, Bool.and_eq_false_iff, decide_eq_false_iff_not,
    Bool.not_eq_false'] at h
  rcases h with (h | h) | h
  · simp [h]
  · simp [h]
  · simp [h]

/-- The stealth branch. -/
theorem loopBody_evade (pow : K → K → K) (user : HabiticaUser K) (s : LoopState K)
    (task : Task K) (h : Spec.inScope task = true) (hs : 0 < s.stealthRemaining) :
    loopBody pow user s task =
      { stealthRemaining := s.stealthRemaining - 1
        stats := { s.stats with dailiesEvaded := s.stats.dailiesEvaded + 1 } } := by
  unfold loopBody
  simp only [Spec.inScope, Bool.and_eq_true, decide_eq_true_eq, Bool.not_eq_true'] at h
  obtain ⟨⟨h1, h2⟩, h3⟩ := h
  simp [h1, h2, h3, hs]

/-- The damage branch. -/
theorem loopBody_damage (pow : K → K → K) (user : HabiticaUser K) (s : LoopState K)
    (task : Task K) (h : Spec.inScope task = true) (hs : s.stealthRemaining ≤ 0) :
    loopBody pow user s task =
      { stealthRemaining := s.stealthRemaining
        stats :=
          { dueCount := s.stats.dueCount + 1
            totalDamageToSelf := s.stats.totalDamageToSelf
            dailyDamageToSelf := s.stats.dailyDamageToSelf + selfContribution pow user task
            bossDamage := s.stats.bossDamage + bossContribution pow user task
            dailiesEvaded := s.stats.dailiesEvaded } } := by
  unfold loopBody
  simp only [Spec.inScope, Bool.and_eq_true, decide_eq_true_eq, Bool.not_eq_true'] at h
  obtain ⟨⟨h1, h2⟩, h3⟩ := h
  have hs' : ¬ (s.stealthRemaining > 0) := not_lt.mpr hs
  by_cases hb : user.isOnBossQuest = true
  · simp [h1, h2, h3, hs', hb, selfContribution, bossContribution]
  · simp [h1, h2, h3, hs', hb, selfContribution, bossContribution]

theorem natCeil_sub_one (a : K) (h : 0 < a) : ⌈a - 1⌉₊ = ⌈a⌉₊ - 1 := by
  apply le_antisymm
  · rw [Nat.ceil_le]
    have h1 : 1 ≤ ⌈a⌉₊ := Nat.ceil_pos.mpr h
    have h2 : a ≤ (⌈a⌉₊ : K) := Nat.le_ceil a
    rw [Nat.cast_sub h1, Nat.cast_one]
    linarith
  · have h3 : ⌈a⌉₊ ≤ ⌈a - 1⌉₊ + 1 := by
      rw [Nat.ceil_le]
      push_cast
      linarith [Nat.le_ceil (a - 1)]
    omega

/-- Closed form of the main loop started in any state: the first `⌈stealthRemaining⌉₊`
due, incomplete dailies are evaded, the others are damaged. -/
theorem foldl_loopBody (pow : K → K → K) (user : HabiticaUser K) :
    ∀ (tasks : List (Task K)) (s : LoopState K),
      tasks.foldl (loopBody pow user) s =
        { stealthRemaining :=
            s.stealthRemaining -
              ((min ⌈s.stealthRemaining⌉₊ (tasks.filter Spec.inScope).length : ℕ) : K)
          stats :=
            { dueCount :=
                s.stats.dueCount +
                  ((tasks.filter Spec.inScope).drop ⌈s.stealthRemaining⌉₊).length
              totalDamageToSelf := s.stats.totalDamageToSelf
              dailyDamageToSelf :=
                s.stats.dailyDamageToSelf +
                  (((tasks.filter Spec.inScope).drop ⌈s.stealthRemaining⌉₊).map
                    (selfContribution pow user)).sum
              bossDamage :=
                s.stats.bossDamage +
                  (((tasks.filter Spec.inScope).drop ⌈s.stealthRemaining⌉₊).map
                    (bossContribution pow user)).sum
              dailiesEvaded :=
                s.stats.dailiesEvaded +
                  min ⌈s.stealthRemaining⌉₊ (tasks.filter Spec.inScope).length } } := by
  intro tasks
  induction tasks with
  | nil => intro s; simp
  | cons t ts ih =>
    intro s
    rw [List.foldl_cons]
    cases hsc : Spec.inScope t with
    | false =>
      rw [loopBody_of_not_inScope pow user s t hsc, ih s]
      simp [List.filter_cons, hsc]
    | true =>
      rcases lt_or_le 0 s.stealthRemaining with hs | hs
      · rw [loopBody_evade pow user s t hsc hs, ih]
        have hpos : 0 < ⌈s.stealthRemaining⌉₊ := Nat.ceil_pos.mpr hs
        have hc : ⌈s.stealthRemaining - 1⌉₊ = ⌈s.stealthRemaining⌉₊ - 1 :=
          natCeil_sub_one _ hs
        obtain ⟨n, hn⟩ : ∃ n, ⌈s.stealthRemaining⌉₊ = n + 1 :=
          ⟨⌈s.stealthRemaining⌉₊ - 1, by omega⟩
        simp only [List.filter_cons, hsc, if_true, hc, hn, Nat.add_sub_cancel,
          List.drop_succ_cons, List.length_cons, Nat.succ_min_succ]
        congr 1
        · congr 1; omega
        · push_cast; ring
      · rw [loopBody_damage pow user s t hsc hs, ih]
        have hz : ⌈s.stealthRemaining⌉₊ = 0 := Nat.ceil_eq_zero.mpr hs
        simp only [List.filter_cons, hsc, if_true, hz, List.drop_zero, List.length_cons,
          List.map_cons, List.sum_cons, Nat.zero_min, Nat.cast_zero, sub_zero, add_zero]
        congr 2
        · omega
        · ring
        · ring

/-- Closed form of the whole run of the main loop. -/
theorem runLoop_eq (pow : K → K → K) (user : HabiticaUser K) (tasks : List (Task K)) :
    runLoop pow user tasks =
      { stealthRemaining :=
          user.stealth -
            ((min (Spec.stealthCapacity user.stealth)
              (Spec.dueIncompleteDailies tasks).length : ℕ) : K)
        stats :=
          { dueCount := (Spec.damagedDailies user.stealth tasks).length
            totalDamageToSelf := 0
            dailyDamageToSelf :=
              ((Spec.damagedDailies user.stealth tasks).map (selfContribution pow user)).sum
            bossDamage :=
              ((Spec.damagedDailies user.stealth tasks).map (bossContribution pow user)).sum
            dailiesEvaded :=
              min (Spec.stealthCapacity user.stealth)
                (Spec.dueIncompleteDailies tasks).length } } := by
  unfold runLoop
  rw [foldl_loopBody]
  simp [initState, Spec.damagedDailies, Spec.dueIncompleteDailies, Spec.stealthCapacity]

/-- The result stored by `calculateDailyStatsFor`. -/
theorem dailyStats_eq (pow : K → K → K) (m : HabiticaUserTasksManager K)
    (user : HabiticaUser K) :
    (calculateDailyStatsFor pow m user).dailyStats =
      some (finish (runLoop pow user m.taskList).stats) := rfl

/-- The iterations that take the stealth branch are those on the first
`⌈stealthRemaining⌉₊` due, incomplete dailies. -/
theorem evadedTasks_eq (pow : K → K → K) (user : HabiticaUser K) :
    ∀ (tasks : List (Task K)) (s : LoopState K),
      evadedTasks pow user s tasks =
        (tasks.filter Spec.inScope).take ⌈s.stealthRemaining⌉₊ := by
  intro tasks
  induction tasks with
  | nil => intro s; simp [evadedTasks]
  | cons t ts ih =>
    intro s
    rw [evadedTasks]
    cases hsc : Spec.inScope t with
    | false =>
      simp only [loopBody_of_not_inScope pow user s t hsc, ih s]
      simp [List.filter_cons, hsc]
    | true =>
      rcases lt_or_le 0 s.stealthRemaining with hs | hs
      · simp only [loopBody_evade pow user s t hsc hs, ih]
        have hpos : 0 < ⌈s.stealthRemaining⌉₊ := Nat.ceil_pos.mpr hs
        obtain ⟨n, hn⟩ : ∃ n, ⌈s.stealthRemaining⌉₊ = n + 1 :=
          ⟨⌈s.stealthRemaining⌉₊ - 1, by omega⟩
        simp [List.filter_cons, hsc, natCeil_sub_one _ hs, hn]
      · simp only [loopBody_damage pow user s t hsc hs, ih]
        have hz : ⌈s.stealthRemaining⌉₊ = 0 := Nat.ceil_eq_zero.mpr hs
        simp [hz]

/-- The iterations that take the damage branch are those on the due, incomplete dailies
after the first `⌈stealthRemaining⌉₊`. -/
theorem damagedTasks_eq (pow : K → K → K) (user : HabiticaUser K) :
    ∀ (tasks : List (Task K)) (s : LoopState K),
      damagedTasks pow user s tasks =
        (tasks.filter Spec.inScope).drop ⌈s.stealthRemaining⌉₊ := by
  intro tasks
  induction tasks with
  | nil => intro s; simp [damagedTasks]
  | cons t ts ih =>
    intro s
    rw [damagedTasks]
    cases hsc : Spec.inScope t with
    | false =>
      simp only [loopBody_of_not_inScope pow user s t hsc, ih s]
      simp [List.filter_cons, hsc]
    | true =>
      rcases lt_or_le 0 s.stealthRemaining with hs | hs
      · simp only [loopBody_evade pow user s t hsc hs, ih]
        have hpos : 0 < ⌈s.stealthRemaining⌉₊ := Nat.ceil_pos.mpr hs
        obtain ⟨n, hn⟩ : ∃ n, ⌈s.stealthRemaining⌉₊ = n + 1 :=
          ⟨⌈s.stealthRemaining⌉₊ - 1, by omega⟩
        simp [List.filter_cons, hsc, natCeil_sub_one _ hs, hn]
      · simp only [loopBody_damage pow user s t hsc hs, ih]
        have hz : ⌈s.stealthRemaining⌉₊ = 0 := Nat.ceil_eq_zero.mpr hs
        simp [hz, List.filter_cons, hsc]

/-- An iteration only reads the clamped value of its task. -/
theorem loopBody_withClampedValue (pow : K → K → K) (user : HabiticaUser K)
    (s : LoopState K) (task : Task K) :
    loopBody pow user s task.withClampedValue = loopBody pow user s task := by
  unfold loopBody
  rw [taskDamage_withClampedValue]
  rfl

/-- Clamping the values of some tasks of the list does not change the run of the loop. -/
theorem foldl_loopBody_clamped (pow : K → K → K) (user : HabiticaUser K)
    (tasks tasks' : List (Task K))
    (h : List.Forall₂ (fun t t' => t' = t ∨ t' = t.withClampedValue) tasks tasks') :
    ∀ s : LoopState K,
      tasks'.foldl (loopBody pow user) s = tasks.foldl (loopBody pow user) s := by
  induction h with
  | nil => intro s; rfl
  | cons hab _ ih =>
    intro s
    rw [List.foldl_cons, List.foldl_cons]
    rcases hab with rfl | rfl
    · exact ih _
    · rw [loopBody_withClampedValue]; exact ih _

/-- In exact arithmetic the damage branch on a daily whose non-empty checklist is all
completed only increments `dueCount`: it adds `0` to `dailyDamageToSelf` and to
`bossDamage`. -/
theorem loopBody_all_completed (pow : K → K → K) (user : HabiticaUser K) (s : LoopState K)
    (task : Task K) (h : Spec.inScope task = true) (hs : s.stealthRemaining ≤ 0)
    (hne : task.checklist ≠ [])
    (hall : ∀ item ∈ task.checklist, item.completed = true) :
    loopBody pow user s task =
      { s with stats := { s.stats with dueCount := s.stats.dueCount + 1 } } := by
  rw [loopBody_damage pow user s task h hs]
  have htd : taskDamage pow task = 0 := taskDamage_eq_zero_of_all_completed pow task hne hall
  have hself : selfContribution pow user task = 0 := by
    unfold selfContribution roundTenth
    rw [htd]
    norm_num
  have hboss : bossContribution pow user task = 0 := by
    unfold bossContribution
    rw [htd]
    split_ifs <;> simp
  rw [hself, hboss, add_zero, add_zero]

end LoopLemmas

/-! ## The claims about the todo filter -/

section TodoClaims

variable {K : Type}

/-- C7: for every task list and cutoff instant, `todosDueOnDate` returns exactly the tasks
of type todo that have a due date strictly before the cutoff, in list order (a sublist of
the task list); a todo due exactly at the cutoff is not returned, and a todo of the list
due one step (one millisecond, the resolution of an instant) earlier is returned. -/
theorem C7_todosDueOnDate (m : HabiticaUserTasksManager K) (cutoff : Int) :
    m.todosDueOnDate cutoff = m.taskList.filter (Spec.todoDueBefore cutoff) ∧
      List.Sublist (m.todosDueOnDate cutoff) m.taskList ∧
      (∀ task : Task K, task.type = "todo" → task.date = some cutoff →
        task ∉ m.todosDueOnDate cutoff) ∧
      (∀ task : Task K, task ∈ m.taskList → task.type = "todo" →
        task.date = some (cutoff - 1) → task ∈ m.todosDueOnDate cutoff) := by
  refine ⟨todosDueOnDate_eq m cutoff, ?_, ?_, ?_⟩
  · rw [todosDueOnDate_eq]; exact List.filter_sublist _
  · intro task hty hd hmem
    rw [todosDueOnDate_eq, List.mem_filter] at hmem
    have := hmem.2
    simp [Spec.todoDueBefore, hty, hd] at this
  · intro task hmem hty hd
    rw [todosDueOnDate_eq, List.mem_filter]
    refine ⟨hmem, ?_⟩
    simp [Spec.todoDueBefore, hty, hd]

/-- The todo filter at cutoff 1000 on a list holding a todo due at 1000 and a todo due
at 999: the first is left out, the second is returned. -/
theorem C7_todosDueOnDate_witness :
    (Sample.todo (some 1000)).type = "todo" ∧
      (Sample.todo (some 1000)).date = some 1000 ∧
      Sample.todo (some 1000) ∉
        HabiticaUserTasksManager.todosDueOnDate
          ⟨[Sample.todo (some 1000), Sample.todo (some 999)], none⟩ 1000 ∧
      Sample.todo (some 999) ∈
        HabiticaUserTasksManager.taskList
          ⟨[Sample.todo (some 1000), Sample.todo (some 999)], none⟩ ∧
      (Sample.todo (some 999)).type = "todo" ∧
      (Sample.todo (some 999)).date = some (1000 - 1) ∧
      Sample.todo (some 999) ∈
        HabiticaUserTasksManager.todosDueOnDate
          ⟨[Sample.todo (some 1000), Sample.todo (some 999)], none⟩ 1000 :=
  have hmem : Sample.todo (some 999) ∈
      HabiticaUserTasksManager.taskList
        ⟨[Sample.todo (some 1000), Sample.todo (some 999)], none⟩ := by
    simp [HabiticaUserTasksManager.taskList]
  ⟨rfl, rfl,
    (C7_todosDueOnDate ⟨[Sample.todo (some 1000), Sample.todo (some 999)], none⟩ 1000).2.2.1
      (Sample.todo (some 1000)) rfl rfl,
    hmem, rfl, rfl,
    (C7_todosDueOnDate ⟨[Sample.todo (some 1000), Sample.todo (some 999)], none⟩ 1000).2.2.2
      (Sample.todo (some 999)) hmem rfl rfl⟩

end TodoClaims

/-! ## The claims about the stats and the daily damage -/

section Claims

variable {K : Type} [LinearOrderedField K] [FloorRing K]

open HabiticaUserTasksManager HabiticaUser

/-- C1: for every user and task list, `calculateDailyStatsFor` sets `dailyDamageToSelf` to
the sum, over the due incomplete dailies that stealth does not evade, of the value
`taskDamage * constitutionBonus * priority * 2` rounded to the nearest tenth, where
`taskDamage` is `|0.9747^clamp(value, -47.27, 21.27)|` less, for a non-empty checklist, that
amount divided by the checklist length for every completed entry. In particular a single
due incomplete daily with priority 1, empty checklist and value 21.27, for a user with
constitution bonus 1, stealth 0 and no boss quest, gives
`round(|0.9747^21.27| * 1 * 1 * 2, 1)`. -/
theorem C1_dailyDamageToSelf (pow : K → K → K) (m : HabiticaUserTasksManager K)
    (user : HabiticaUser K) :
    (calculateDailyStatsFor pow m user).dailyStats.map DailyStats.dailyDamageToSelf =
        some (((Spec.damagedDailies user.stealth m.taskList).map
          (Spec.selfDamage pow user.constitutionBonus)).sum) ∧
      (∀ task : Task K, m.taskList = [task] → task.type = "daily" → task.isDue = true →
        task.completed = false → task.priority = 1 → task.checklist = [] →
        task.value = 21.27 → user.constitutionBonus = 1 → user.stealth = 0 →
        user.isOnBossQuest = false →
        (calculateDailyStatsFor pow m user).dailyStats.map DailyStats.dailyDamageToSelf =
          some (Spec.roundToTenth (|pow 0.9747 21.27| * 1 * 1 * 2))) := by
  have key : (calculateDailyStatsFor pow m user).dailyStats.map DailyStats.dailyDamageToSelf =
        some (((Spec.damagedDailies user.stealth m.taskList).map
          (Spec.selfDamage pow user.constitutionBonus)).sum) := by
    rw [dailyStats_eq, runLoop_eq]
    simp only [finish, Option.map_some']
    have hfun : selfContribution pow user = Spec.selfDamage pow user.constitutionBonus :=
      funext (selfContribution_eq pow user)
    rw [hfun]
  refine ⟨key, ?_⟩
  intro task hl hty hdue hcomp hprio hcl hval hcon hst _
  rw [key, hl, hst]
  have hsc : Spec.inScope task = true := by simp [Spec.inScope, hty, hdue, hcomp]
  have hclamp : Spec.clampValue (21.27 : K) = 21.27 := by
    unfold Spec.clampValue Spec.clamp
    rw [min_self, max_eq_right (by norm_num)]
  simp [Spec.damagedDailies, Spec.dueIncompleteDailies, Spec.stealthCapacity, hsc,
    Spec.selfDamage, Spec.taskDamage, Spec.rawDamage, hcl, hval, hcon, hprio, hclamp]

/-- The particular case of C1 on the sample daily at the value cap. -/
theorem C1_dailyDamageToSelf_witness :
    (⟨[Sample.capDaily], none⟩ : HabiticaUserTasksManager ℚ).taskList = [Sample.capDaily] ∧
      Sample.capDaily.type = "daily" ∧ Sample.capDaily.isDue = true ∧
      Sample.capDaily.completed = false ∧ Sample.capDaily.priority = 1 ∧
      Sample.capDaily.checklist = [] ∧ Sample.capDaily.value = 21.27 ∧
      Sample.plainUser.constitutionBonus = 1 ∧ Sample.plainUser.stealth = 0 ∧
      Sample.plainUser.isOnBossQuest = false ∧
      (calculateDailyStatsFor Sample.powStub ⟨[Sample.capDaily], none⟩
          Sample.plainUser).dailyStats.map DailyStats.dailyDamageToSelf =
        some (Spec.roundToTenth (|Sample.powStub 0.9747 21.27| * 1 * 1 * 2)) :=
  have hcon : Sample.plainUser.constitutionBonus = 1 := by
    simp [HabiticaUser.constitutionBonus, HabiticaUser.stats, HabiticaUser._calculateStats,
      Sample.plainUser, Sample.userWith, HabiticaUser.armor, HabiticaUser.level]
    norm_num
  ⟨rfl, rfl, rfl, rfl, rfl, rfl, rfl, hcon, rfl, rfl,
    (C1_dailyDamageToSelf Sample.powStub ⟨[Sample.capDaily], none⟩ Sample.plainUser).2
      Sample.capDaily rfl rfl rfl rfl rfl rfl rfl hcon rfl rfl⟩

/-- C2: for every task list and every non-negative integer stealth count `s`, with `n` the
number of due incomplete dailies, `calculateDailyStatsFor` yields
`dailiesEvaded = min s n` and `dueCount = n - min s n`, so that their sum is `n`; the
iterations that take the stealth branch are exactly those on the first `min s n` due
incomplete dailies in list order, and the iterations that compute damage are exactly those
on the remaining ones. -/
theorem C2_stealth_evasion (pow : K → K → K) (m : HabiticaUserTasksManager K)
    (user : HabiticaUser K) (s : ℕ) (hs : user.stealth = (s : K)) :
    (calculateDailyStatsFor pow m user).dailyStats.map DailyStats.dailiesEvaded =
        some (min s (Spec.dueIncompleteDailies m.taskList).length) ∧
      (calculateDailyStatsFor pow m user).dailyStats.map DailyStats.dueCount =
        some ((Spec.dueIncompleteDailies m.taskList).length -
          min s (Spec.dueIncompleteDailies m.taskList).length) ∧
      (calculateDailyStatsFor pow m user).dailyStats.map
          (fun stats => stats.dailiesEvaded + stats.dueCount) =
        some (Spec.dueIncompleteDailies m.taskList).length ∧
      evadedTasks pow user (initState user) m.taskList =
        (Spec.dueIncompleteDailies m.taskList).take
          (min s (Spec.dueIncompleteDailies m.taskList).length) ∧
      damagedTasks pow user (initState user) m.taskList =
        (Spec.dueIncompleteDailies m.taskList).drop
          (min s (Spec.dueIncompleteDailies m.taskList).length) := by
  have hcap : Spec.stealthCapacity user.stealth = s := by
    rw [hs]; exact Nat.ceil_natCast s
  have hcap' : ⌈(initState user).stealthRemaining⌉₊ = s := hcap
  refine ⟨?_, ?_, ?_, ?_, ?_⟩
  · rw [dailyStats_eq, runLoop_eq, hcap]; rfl
  · rw [dailyStats_eq, runLoop_eq]
    simp only [finish, Option.map_some', Spec.damagedDailies, hcap, List.length_drop]
    congr 1; omega
  · rw [dailyStats_eq, runLoop_eq]
    simp only [finish, Option.map_some', Spec.damagedDailies, hcap, List.length_drop]
    congr 1; omega
  · rw [evadedTasks_eq, hcap', Spec.dueIncompleteDailies]
    rcases le_total s (List.filter Spec.inScope m.taskList).length with h | h
    · rw [min_eq_left h]
    · rw [min_eq_right h, List.take_of_length_le h, List.take_length]
  · rw [damagedTasks_eq, hcap', Spec.dueIncompleteDailies]
    rcases le_total s (List.filter Spec.inScope m.taskList).length with h | h
    · rw [min_eq_left h]
    · rw [min_eq_right h, List.drop_of_length_le h, List.drop_length]

/-- C2 for a user with stealth 1 and the list of a habit, a daily at the cap and a
neglected daily: one daily is evaded, one is damaged. -/
theorem C2_stealth_evasion_witness :
    Sample.stealthyUser.stealth = ((1 : ℕ) : ℚ) ∧
      (calculateDailyStatsFor Sample.powStub
          ⟨[Sample.habit, Sample.capDaily, Sample.neglectedDaily], none⟩
          Sample.stealthyUser).dailyStats.map DailyStats.dailiesEvaded = some 1 ∧
      (calculateDailyStatsFor Sample.powStub
          ⟨[Sample.habit, Sample.capDaily, Sample.neglectedDaily], none⟩
          Sample.stealthyUser).dailyStats.map DailyStats.dueCount = some 1 ∧
      evadedTasks Sample.powStub Sample.stealthyUser (initState Sample.stealthyUser)
          [Sample.habit, Sample.capDaily, Sample.neglectedDaily] = [Sample.capDaily] ∧
      damagedTasks Sample.powStub Sample.stealthyUser (initState Sample.stealthyUser)
          [Sample.habit, Sample.capDaily, Sample.neglectedDaily] = [Sample.neglectedDaily] :=
  have hs : Sample.stealthyUser.stealth = ((1 : ℕ) : ℚ) := by
    simp [HabiticaUser.stealth, Sample.stealthyUser, Sample.userWith]
  have h := C2_stealth_evasion Sample.powStub
    ⟨[Sample.habit, Sample.capDaily, Sample.neglectedDaily], none⟩ Sample.stealthyUser 1 hs
  have hdue : Spec.dueIncompleteDailies
      (HabiticaUserTasksManager.taskList
        (⟨[Sample.habit, Sample.capDaily, Sample.neglectedDaily], none⟩ :
          HabiticaUserTasksManager ℚ)) = [Sample.capDaily, Sample.neglectedDaily] := by
    simp [Spec.dueIncompleteDailies, HabiticaUserTasksManager.taskList, Spec.inScope,
      Sample.habit, Sample.capDaily, Sample.neglectedDaily, Sample.daily, List.filter_cons]
  ⟨hs, by simpa [hdue] using h.1, by simpa [hdue] using h.2.1,
    by simpa [hdue, HabiticaUserTasksManager.taskList] using h.2.2.2.1,
    by simpa [hdue, HabiticaUserTasksManager.taskList] using h.2.2.2.2⟩

/-- C3: for every user snapshot and every dimension `d`, `_calculateStats` returns
`armor[d]` equal to the sum of `g[d]` over the equipped items plus `0.5 * g[d]` for every
item whose `klass` or `specialClass` is the class of the user, `buffs[d]` and `points[d]`
as read from the snapshot, and `totals[d] = armor[d] + buffs[d] + points[d] +
floor(level / 2)`; without equipped gear `armor[d] = 0`. -/
theorem C3_calculateStats (u : HabiticaUser K) (d : Dim) :
    u._calculateStats.armor.get d = Spec.armorSum u.className (u.armor.map Prod.snd) d ∧
      u._calculateStats.buffs.get d = u.apiData.stats.buffs.get d ∧
      u._calculateStats.points.get d = u.apiData.stats.get d ∧
      u._calculateStats.totals.get d =
        u._calculateStats.armor.get d + u._calculateStats.buffs.get d +
          u._calculateStats.points.get d + ((⌊u.level / 2⌋ : Int) : K) ∧
      (u.armor = [] → u._calculateStats.armor.get d = 0) := by
  have harmor : u._calculateStats.armor.get d =
      Spec.armorSum u.className (u.armor.map Prod.snd) d := by
    have h := foldl_addArmorItem u.className u.armor
      { str := 0, con := 0, int := 0, per := 0 } d
    have h0 : ({ str := 0, con := 0, int := 0, per := 0 } : StatBlock K).get d = 0 := by
      cases d <;> rfl
    rw [h0, zero_add] at h
    exact h
  refine ⟨harmor, ?_, ?_, ?_, ?_⟩
  · cases d <;> rfl
  · cases d <;> rfl
  · cases d <;> rfl
  · intro hnil
    rw [harmor, hnil]
    simp [Spec.armorSum]

/-- C3 for the sample user, who has no gear: the armor constitution is 0. -/
theorem C3_calculateStats_witness :
    Sample.plainUser.armor = [] ∧ Sample.plainUser._calculateStats.armor.get Dim.con = 0 :=
  ⟨rfl, (C3_calculateStats Sample.plainUser Dim.con).2.2.2.2 rfl⟩

/-- C4: for every total constitution `c`, `constitutionBonus` is `max(0.1, 1 - c/250)`;
it is exactly `0.1` for `c ≥ 250`, exactly `1` for `c = 0`, and never below `0.1`. -/
theorem C4_constitutionBonus (u : HabiticaUser K) (c : K) (hc : u.stats.totals.con = c) :
    u.constitutionBonus = max 0.1 (1 - c / 250) ∧
      (250 ≤ c → u.constitutionBonus = 0.1) ∧
      (c = 0 → u.constitutionBonus = 1) ∧
      0.1 ≤ u.constitutionBonus := by
  have hmax : u.constitutionBonus = max 0.1 (1 - c / 250) := by
    unfold constitutionBonus
    simp only [hc]
    by_cases h : 1 - c / 250 < (0.1 : K)
    · rw [if_pos h, max_eq_left h.le]
    · rw [if_neg h, max_eq_right (not_lt.mp h)]
  refine ⟨hmax, ?_, ?_, ?_⟩
  · intro h250
    rw [hmax]
    apply max_eq_left
    have : c / 250 ≥ 1 := by
      rw [ge_iff_le, le_div_iff₀ (by norm_num)]
      linarith
    have h01 : (0 : K) ≤ 0.1 := by norm_num
    linarith
  · intro h0
    rw [hmax, h0]
    norm_num
  · rw [hmax]
    exact le_max_left _ _

/-- C4 for a user with total constitution 250 (bonus 0.1) and a user with total
constitution 0 (bonus 1). -/
theorem C4_constitutionBonus_witness :
    Sample.sturdyUser.stats.totals.con = 250 ∧ (250 : ℚ) ≤ 250 ∧
      Sample.sturdyUser.constitutionBonus = 0.1 ∧
      Sample.plainUser.stats.totals.con = 0 ∧ Sample.plainUser.constitutionBonus = 1 :=
  have h250 : Sample.sturdyUser.stats.totals.con = 250 := by
    simp [HabiticaUser.stats, HabiticaUser._calculateStats, Sample.sturdyUser,
      Sample.userWith, HabiticaUser.armor, HabiticaUser.level]
  have h0 : Sample.plainUser.stats.totals.con = 0 := by
    simp [HabiticaUser.stats, HabiticaUser._calculateStats, Sample.plainUser,
      Sample.userWith, HabiticaUser.armor, HabiticaUser.level]
  ⟨h250, le_refl _, (C4_constitutionBonus Sample.sturdyUser 250 h250).2.1 (le_refl _), h0,
    (C4_constitutionBonus Sample.plainUser 0 h0).2.2.1 rfl⟩

/-- C5: for every user and task list, with `B` the boss damage accumulated by the loop
over the damaged tasks, `calculateDailyStatsFor` sets
`totalDamageToSelf = ceil((dailyDamageToSelf + B) * 10) / 10` and reports
`bossDamage = ceil(B * 10) / 10`, while `dailyDamageToSelf` stays the sum of the per-task
rounded contributions and is not rounded up. -/
theorem C5_final_rounding (pow : K → K → K) (m : HabiticaUserTasksManager K)
    (user : HabiticaUser K) :
    (runLoop pow user m.taskList).stats.dailyDamageToSelf =
        ((Spec.damagedDailies user.stealth m.taskList).map
          (Spec.selfDamage pow user.constitutionBonus)).sum ∧
      (runLoop pow user m.taskList).stats.bossDamage =
        ((Spec.damagedDailies user.stealth m.taskList).map
          (bossContribution pow user)).sum ∧
      (calculateDailyStatsFor pow m user).dailyStats.map DailyStats.totalDamageToSelf =
        some (((⌈((runLoop pow user m.taskList).stats.dailyDamageToSelf +
          (runLoop pow user m.taskList).stats.bossDamage) * 10⌉ : Int) : K) / 10) ∧
      (calculateDailyStatsFor pow m user).dailyStats.map DailyStats.bossDamage =
        some (((⌈(runLoop pow user m.taskList).stats.bossDamage * 10⌉ : Int) : K) / 10) ∧
      (calculateDailyStatsFor pow m user).dailyStats.map DailyStats.dailyDamageToSelf =
        some (runLoop pow user m.taskList).stats.dailyDamageToSelf := by
  have hfun : selfContribution pow user = Spec.selfDamage pow user.constitutionBonus :=
    funext (selfContribution_eq pow user)
  refine ⟨?_, ?_, ?_, ?_, ?_⟩
  · rw [runLoop_eq, hfun]
  · rw [runLoop_eq]
  · rw [dailyStats_eq]; rfl
  · rw [dailyStats_eq]; rfl
  · rw [dailyStats_eq]; rfl

/-- C6: for every user on a boss quest with boss strength `S` and every task list, the
boss damage accumulated before the final rounding is the sum over the damaged dailies of
`taskDamage * min(priority, 1) * S`, with `taskDamage` the value after the checklist
discount and before the constitution bonus; any other user with the same stealth count and
the same quest, whatever the constitution, accumulates the same boss damage. -/
theorem C6_bossDamage (pow : K → K → K) (tasks : List (Task K)) (user : HabiticaUser K)
    (S : K) (hq : user.quest = { data := some { boss := some { str := S } } }) :
    (runLoop pow user tasks).stats.bossDamage =
        ((Spec.damagedDailies user.stealth tasks).map
          (fun task => taskDamage pow task * min task.priority 1 * S)).sum ∧
      (∀ other : HabiticaUser K, other.stealth = user.stealth → other.quest = user.quest →
        (runLoop pow other tasks).stats.bossDamage =
          (runLoop pow user tasks).stats.bossDamage) := by
  have key : ∀ u : HabiticaUser K,
      u.quest = { data := some { boss := some { str := S } } } →
      (runLoop pow u tasks).stats.bossDamage =
        ((Spec.damagedDailies u.stealth tasks).map
          (fun task => taskDamage pow task * min task.priority 1 * S)).sum := by
    intro u hu
    rw [runLoop_eq]
    have hfun : bossContribution pow u =
        fun task => taskDamage pow task * min task.priority 1 * S :=
      funext (bossContribution_of_quest pow u S hu)
    simp only [hfun]
  refine ⟨key user hq, ?_⟩
  intro other hst hqo
  rw [key user hq, key other (hqo.trans hq), hst]

/-- C6 for the sample user on a boss quest of strength 1, compared with a user of total
constitution 250 on the same quest. -/
theorem C6_bossDamage_witness :
    Sample.bossUser.quest = { data := some { boss := some { str := 1 } } } ∧
      (Sample.userWith 0 250 { data := some { boss := some { str := 1 } } }).stealth =
        Sample.bossUser.stealth ∧
      (Sample.userWith 0 250 { data := some { boss := some { str := 1 } } }).quest =
        Sample.bossUser.quest ∧
      (runLoop Sample.powStub
          (Sample.userWith 0 250 { data := some { boss := some { str := 1 } } })
          [Sample.capDaily, Sample.habit]).stats.bossDamage =
        (runLoop Sample.powStub Sample.bossUser
          [Sample.capDaily, Sample.habit]).stats.bossDamage :=
  ⟨rfl, rfl, rfl,
    (C6_bossDamage Sample.powStub [Sample.capDaily, Sample.habit] Sample.bossUser 1 rfl).2
      (Sample.userWith 0 250 { data := some { boss := some { str := 1 } } }) rfl rfl⟩

/-- C8: for every user and task list, the run of the loop (stats and remaining stealth)
and the DailyStats stored by `calculateDailyStatsFor` are the same as on the list with
every out-of-scope task removed, that is every task that is not a due incomplete daily; an
iteration on an out-of-scope task leaves the whole loop state, the stealth counter
included, as it was. -/
theorem C8_out_of_scope_tasks (pow : K → K → K) (m : HabiticaUserTasksManager K)
    (user : HabiticaUser K) :
    runLoop pow user m.taskList = runLoop pow user (m.taskList.filter Spec.inScope) ∧
      (calculateDailyStatsFor pow m user).dailyStats =
        (calculateDailyStatsFor pow { m with apiData := m.taskList.filter Spec.inScope }
          user).dailyStats ∧
      (∀ (s : LoopState K) (task : Task K), Spec.inScope task = false →
        loopBody pow user s task = s) := by
  have h : runLoop pow user m.taskList = runLoop pow user (m.taskList.filter Spec.inScope) := by
    rw [runLoop_eq, runLoop_eq]
    simp [Spec.damagedDailies, Spec.dueIncompleteDailies]
  refine ⟨h, ?_, ?_⟩
  · rw [dailyStats_eq, dailyStats_eq, h]
    rfl
  · intro s task hsc
    exact loopBody_of_not_inScope pow user s task hsc

/-- C8 for the sample habit, which is flagged due and incomplete: an iteration on it
leaves the initial state of a user with stealth untouched. -/
theorem C8_out_of_scope_tasks_witness :
    Spec.inScope Sample.habit = false ∧
      loopBody Sample.powStub Sample.stealthyUser (initState Sample.stealthyUser) Sample.habit =
        initState Sample.stealthyUser :=
  ⟨by simp [Spec.inScope, Sample.habit],
    (C8_out_of_scope_tasks Sample.powStub ⟨[Sample.habit], none⟩ Sample.stealthyUser).2.2
      (initState Sample.stealthyUser) Sample.habit (by simp [Spec.inScope, Sample.habit])⟩

/-- C9: for every user and task list, replacing the value `v` of any of the tasks by
`clamp(v, -47.27, 21.27)` leaves the DailyStats stored by `calculateDailyStatsFor`
unchanged; in particular an iteration on a daily with value below `-47.27` has the same
effect as on the same daily with value exactly `-47.27`. -/
theorem C9_clamp_equivalence (pow : K → K → K) (m m' : HabiticaUserTasksManager K)
    (user : HabiticaUser K)
    (h : List.Forall₂ (fun t t' => t' = t ∨ t' = t.withClampedValue) m.taskList m'.taskList) :
    (calculateDailyStatsFor pow m' user).dailyStats =
        (calculateDailyStatsFor pow m user).dailyStats ∧
      (∀ (task : Task K) (s : LoopState K), task.value < -47.27 →
        loopBody pow user s task = loopBody pow user s { task with value := -47.27 }) := by
  constructor
  · rw [dailyStats_eq, dailyStats_eq]
    unfold runLoop
    rw [foldl_loopBody_clamped pow user _ _ h]
  · intro task s hv
    rw [← loopBody_withClampedValue pow user s task]
    have hc : Spec.clampValue task.value = -47.27 := by
      unfold Spec.clampValue Spec.clamp
      have h1 : task.value < (21.27 : K) := lt_trans hv (by norm_num)
      rw [min_eq_left h1.le, max_eq_left hv.le]
    unfold Task.withClampedValue
    rw [hc]

/-- C9 for the list of the sample habit and the neglected daily (value -100), with the
value of the daily clamped and the habit kept. -/
theorem C9_clamp_equivalence_witness :
    List.Forall₂ (fun t t' => t' = t ∨ t' = t.withClampedValue)
        (HabiticaUserTasksManager.taskList
          (⟨[Sample.habit, Sample.neglectedDaily], none⟩ : HabiticaUserTasksManager ℚ))
        (HabiticaUserTasksManager.taskList
          (⟨[Sample.habit, Sample.neglectedDaily.withClampedValue], none⟩ :
            HabiticaUserTasksManager ℚ)) ∧
      (calculateDailyStatsFor Sample.powStub
          ⟨[Sample.habit, Sample.neglectedDaily.withClampedValue], none⟩
          Sample.bossUser).dailyStats =
        (calculateDailyStatsFor Sample.powStub ⟨[Sample.habit, Sample.neglectedDaily], none⟩
          Sample.bossUser).dailyStats ∧
      Sample.neglectedDaily.value < -47.27 ∧
      loopBody Sample.powStub Sample.bossUser (initState Sample.bossUser)
          Sample.neglectedDaily =
        loopBody Sample.powStub Sample.bossUser (initState Sample.bossUser)
          { Sample.neglectedDaily with value := -47.27 } :=
  have hrel : List.Forall₂ (fun t t' => t' = t ∨ t' = t.withClampedValue)
      (HabiticaUserTasksManager.taskList
        (⟨[Sample.habit, Sample.neglectedDaily], none⟩ : HabiticaUserTasksManager ℚ))
      (HabiticaUserTasksManager.taskList
        (⟨[Sample.habit, Sample.neglectedDaily.withClampedValue], none⟩ :
          HabiticaUserTasksManager ℚ)) :=
    List.Forall₂.cons (Or.inl rfl) (List.Forall₂.cons (Or.inr rfl) List.Forall₂.nil)
  have hv : Sample.neglectedDaily.value < -47.27 := by
    simp [Sample.neglectedDaily, Sample.daily]
    norm_num
  ⟨hrel,
    (C9_clamp_equivalence Sample.powStub ⟨[Sample.habit, Sample.neglectedDaily], none⟩
      ⟨[Sample.habit, Sample.neglectedDaily.withClampedValue], none⟩ Sample.bossUser hrel).1,
    hv,
    (C9_clamp_equivalence Sample.powStub ⟨[Sample.habit, Sample.neglectedDaily], none⟩
      ⟨[Sample.habit, Sample.neglectedDaily.withClampedValue], none⟩ Sample.bossUser hrel).2
      Sample.neglectedDaily (initState Sample.bossUser) hv⟩

end Claims

/-! ## The checklist discount in double precision -/

/-- C10, evaluated in double precision at a due incomplete daily of value 0 and priority 1
whose three checklist entries are all completed, for a user on a boss quest of strength 1
without stealth: the task damage after the checklist discount is `2^-53`, not `0`; the
daily adds `0` to `dailyDamageToSelf` and is counted in `dueCount`, but the reported
`bossDamage` and `totalDamageToSelf` are both the double `0.1`. -/
theorem C10_checklist_residue_binary64 :
    Binary64.taskDamage Sample.powStub Sample.checkedDaily = 1 / 2 ^ 53 ∧
      (Binary64.calculateDailyStatsFor Sample.powStub ⟨[Sample.checkedDaily], none⟩
          Sample.bossUser).dailyStats =
        some
          { dueCount := 1
            totalDamageToSelf := Binary64.toBinary64 (1 / 10)
            dailyDamageToSelf := 0
            bossDamage := Binary64.toBinary64 (1 / 10)
            dailiesEvaded := 0 } ∧
      Binary64.toBinary64 (1 / 10) = 3602879701896397 / 36028797018963968 := by
  decide!

/-! ## Further lemmas -/

section PlainLemmas2

variable {K : Type}

/-- Two stat blocks with the same entry in every dimension are equal. -/
theorem StatBlock.ext_get (a b : StatBlock K) (h : ∀ d : Dim, a.get d = b.get d) : a = b := by
  cases a
  cases b
  have h1 := h Dim.str
  have h2 := h Dim.con
  have h3 := h Dim.int
  have h4 := h Dim.per
  simp only [StatBlock.get] at h1 h2 h3 h4
  simp [h1, h2, h3, h4]

/-- The getter `isOnBossQuest` in terms of the quest record. -/
theorem isOnBossQuest_iff (user : HabiticaUser K) :
    user.isOnBossQuest = true ↔
      ∃ (q : QuestData K) (b : Boss K), user.quest.data = some q ∧ q.boss = some b := by
  unfold HabiticaUser.isOnBossQuest HabiticaUser.isOnQuest
  cases hd : user.quest.data with
  | none => simp
  | some q =>
    cases hb : q.boss with
    | none => simp [hb]
    | some b => simp [hb]

end PlainLemmas2

section GearLemmas

variable {K : Type} [LinearOrderedField K]

/-- The armor sum of the specification does not depend on the order of the items. -/
theorem armorSum_perm (className : String) (gear gear' : List (GearItem K))
    (h : List.Perm gear gear') (d : Dim) :
    Spec.armorSum className gear d = Spec.armorSum className gear' d := by
  unfold Spec.armorSum
  rw [(h.map _).sum_eq, ((h.filter _).map _).sum_eq]

/-- The armor loop gives the same block for any order of the equipped entries. -/
theorem foldl_addArmorItem_perm (className : String)
    (entries entries' : List (String × GearItem K)) (h : List.Perm entries entries')
    (acc : StatBlock K) :
    entries.foldl (HabiticaUser.addArmorItem className) acc =
      entries'.foldl (HabiticaUser.addArmorItem className) acc := by
  apply StatBlock.ext_get
  intro d
  rw [foldl_addArmorItem, foldl_addArmorItem, armorSum_perm className _ _ (h.map Prod.snd) d]

end GearLemmas

section ClampLemmas

variable {K : Type} [LinearOrderedField K]

/-- The clamp is monotone. -/
theorem clampValue_mono {v1 v2 : K} (h : v1 ≤ v2) :
    Spec.clampValue v1 ≤ Spec.clampValue v2 := by
  unfold Spec.clampValue Spec.clamp
  exact max_le_max (le_refl _) (min_le_min h (le_refl _))

/-- The clamp leaves the values between the caps as they are. -/
theorem clampValue_of_mem {v : K} (hlo : -47.27 ≤ v) (hhi : v ≤ 21.27) :
    Spec.clampValue v = v := by
  unfold Spec.clampValue Spec.clamp
  rw [min_eq_left hhi, max_eq_right hlo]

end ClampLemmas

section DiscountLemmas

variable {K : Type} [LinearOrderedField K]

open HabiticaUserTasksManager

/-- The decay curve is non-negative. -/
theorem rawTaskDamage_nonneg (pow : K → K → K) (task : Task K) :
    0 ≤ rawTaskDamage pow task := by
  unfold rawTaskDamage
  exact abs_nonneg _

/-- In exact arithmetic the checklist discount multiplies the damage by the share of
entries that are not completed. -/
theorem taskDamage_eq_share (pow : K → K → K) (task : Task K)
    (hpos : 0 < task.checklist.length) :
    taskDamage pow task =
      rawTaskDamage pow task *
        ((task.checklist.length : K) - (Spec.completedCount task.checklist : K)) /
          (task.checklist.length : K) := by
  have hlen : (task.checklist.length : K) ≠ 0 := Nat.cast_ne_zero.mpr (by omega)
  unfold taskDamage
  simp only [gt_iff_lt, hpos, if_true, checklistLoop_eq]
  field_simp
  ring

/-- In exact arithmetic the task damage after the checklist discount lies between zero and
the damage before the discount. -/
theorem taskDamage_bounds (pow : K → K → K) (task : Task K) :
    0 ≤ taskDamage pow task ∧ taskDamage pow task ≤ rawTaskDamage pow task := by
  have hraw := rawTaskDamage_nonneg pow task
  rcases Nat.eq_zero_or_pos task.checklist.length with h0 | hpos
  · have : taskDamage pow task = rawTaskDamage pow task := by
      unfold taskDamage
      simp [h0]
    rw [this]
    exact ⟨hraw, le_refl _⟩
  · have hk : (Spec.completedCount task.checklist : K) ≤ (task.checklist.length : K) :=
      Nat.cast_le.mpr (List.countP_le_length _)
    have hk0 : (0 : K) ≤ (Spec.completedCount task.checklist : K) := Nat.cast_nonneg _
    have hlen : (0 : K) < (task.checklist.length : K) := Nat.cast_pos.mpr hpos
    rw [taskDamage_eq_share pow task hpos]
    constructor
    · exact div_nonneg (mul_nonneg hraw (sub_nonneg.mpr hk)) hlen.le
    · rw [div_le_iff₀ hlen]
      nlinarith

/-- The boss contribution only reads the quest of the user. -/
theorem bossContribution_congr (pow : K → K → K) (u1 u2 : HabiticaUser K)
    (hq : u1.quest = u2.quest) (task : Task K) :
    bossContribution pow u1 task = bossContribution pow u2 task := by
  unfold bossContribution HabiticaUser.isOnBossQuest HabiticaUser.isOnQuest
    HabiticaUser.questBossStr
  rw [hq]

end DiscountLemmas

section RoundingLemmas

variable {K : Type} [LinearOrderedField K] [FloorRing K]

open HabiticaUserTasksManager HabiticaUser

/-- A sum of values rounded to a tenth is an integer number of tenths. -/
theorem sum_selfContribution_tenths (pow : K → K → K) (user : HabiticaUser K)
    (tasks : List (Task K)) :
    ∃ z : ℤ, (tasks.map (selfContribution pow user)).sum = (z : K) / 10 := by
  induction tasks with
  | nil => exact ⟨0, by simp⟩
  | cons t ts ih =>
    obtain ⟨z, hz⟩ := ih
    refine ⟨⌊taskDamage pow t * user.constitutionBonus * t.priority * 2 * 10 + 1 / 2⌋ + z, ?_⟩
    rw [List.map_cons, List.sum_cons, hz]
    unfold selfContribution roundTenth
    push_cast
    ring

/-- Rounding up to a tenth commutes with adding an integer number of tenths. -/
theorem ceilTenth_tenths_add (z : ℤ) (x : K) :
    ceilTenth ((z : K) / 10 + x) = (z : K) / 10 + ceilTenth x := by
  unfold ceilTenth
  have h : ((z : K) / 10 + x) * 10 = x * 10 + (z : K) := by ring
  rw [h, Int.ceil_add_int]
  push_cast
  ring

/-- Rounding to the nearest tenth is monotone. -/
theorem roundTenth_mono {x y : K} (h : x ≤ y) : roundTenth x ≤ roundTenth y := by
  unfold roundTenth
  apply div_le_div_of_nonneg_right _ (by norm_num : (0 : K) ≤ 10)
  exact Int.cast_le.mpr (Int.floor_mono (by linarith))

/-- The constitution bonus as a maximum. -/
theorem constitutionBonus_eq_max (u : HabiticaUser K) :
    u.constitutionBonus = max 0.1 (1 - u.stats.totals.con / 250) := by
  unfold constitutionBonus
  simp only
  by_cases h : 1 - u.stats.totals.con / 250 < (0.1 : K)
  · rw [if_pos h, max_eq_left h.le]
  · rw [if_neg h, max_eq_right (not_lt.mp h)]

/-- The constitution bonus does not increase with the total constitution. -/
theorem constitutionBonus_anti (u1 u2 : HabiticaUser K)
    (h : u1.stats.totals.con ≤ u2.stats.totals.con) :
    u2.constitutionBonus ≤ u1.constitutionBonus := by
  rw [constitutionBonus_eq_max, constitutionBonus_eq_max]
  apply max_le_max (le_refl _)
  have : u1.stats.totals.con / 250 ≤ u2.stats.totals.con / 250 :=
    div_le_div_of_nonneg_right h (by norm_num)
  linarith

/-- Membership in the damaged dailies implies membership in the task list. -/
theorem mem_of_mem_damagedDailies {stealth : K} {tasks : List (Task K)} {task : Task K}
    (h : task ∈ Spec.damagedDailies stealth tasks) : task ∈ tasks := by
  unfold Spec.damagedDailies Spec.dueIncompleteDailies at h
  exact List.mem_of_mem_filter (List.mem_of_mem_drop h)

end RoundingLemmas

/-! ## The claims about gear order, overwriting, decay, stealth and quests -/

section GearClaims

variable {K : Type} [LinearOrderedField K] [FloorRing K]

open HabiticaUserTasksManager HabiticaUser

/-- C11, as amended: in exact arithmetic, for every user snapshot, the Stats returned by
`_calculateStats` (armor, buffs, points and totals in all four dimensions) are the same
when the equipped-gear entries are enumerated in any other order, that is for any
permutation of the list of entries. -/
theorem C11_gear_order (u : HabiticaUser K) (equipped' : List (String × GearItem K))
    (h : List.Perm u.apiData.equipped equipped') :
    HabiticaUser._calculateStats { apiData := { u.apiData with equipped := equipped' } } =
      u._calculateStats := by
  unfold _calculateStats
  simp only [HabiticaUser.armor, HabiticaUser.className, HabiticaUser.level]
  rw [foldl_addArmorItem_perm _ _ _ h]

/-- C11 for a rogue wearing a dagger and a shield, enumerated in both orders. -/
theorem C11_gear_order_witness :
    List.Perm (Sample.gearedUser [("weapon", Sample.dagger), ("shield", Sample.shield)]).apiData.equipped
        [("shield", Sample.shield), ("weapon", Sample.dagger)] ∧
      HabiticaUser._calculateStats
          { apiData :=
              { (Sample.gearedUser
                    [("weapon", Sample.dagger), ("shield", Sample.shield)]).apiData with
                equipped := [("shield", Sample.shield), ("weapon", Sample.dagger)] } } =
        (Sample.gearedUser
          [("weapon", Sample.dagger), ("shield", Sample.shield)])._calculateStats :=
  ⟨List.Perm.swap _ _ _,
    C11_gear_order (Sample.gearedUser [("weapon", Sample.dagger), ("shield", Sample.shield)])
      [("shield", Sample.shield), ("weapon", Sample.dagger)] (List.Perm.swap _ _ _)⟩

/-- C12: `calculateDailyStatsFor` replaces `dailyStats` by a value that only depends on the
task list and the user: whatever `dailyStats` held before, the new value is the same;
running the method a second time with the same user changes nothing; the task list of the
manager is left as it was, and so is the user, its stealth value included. -/
theorem C12_overwrite (pow : K → K → K) (m : HabiticaUserTasksManager K)
    (user : HabiticaUser K) (previous : Option (DailyStats K)) :
    (calculateDailyStatsFor pow { m with dailyStats := previous } user).dailyStats =
        (calculateDailyStatsFor pow m user).dailyStats ∧
      calculateDailyStatsFor pow (calculateDailyStatsFor pow m user) user =
        calculateDailyStatsFor pow m user ∧
      (calculateDailyStatsFor pow m user).taskList = m.taskList ∧
      (calculateDailyStatsForEffect pow (m, user)).1 = calculateDailyStatsFor pow m user ∧
      (calculateDailyStatsForEffect pow (m, user)).2 = user ∧
      (calculateDailyStatsForEffect pow (m, user)).2.stealth = user.stealth ∧
      calculateDailyStatsForEffect pow (calculateDailyStatsForEffect pow (m, user)) =
        calculateDailyStatsForEffect pow (m, user) :=
  ⟨rfl, rfl, rfl, rfl, rfl, rfl, rfl⟩

end GearClaims

section DecayClaims

open HabiticaUserTasksManager

/-- C13, as amended: in exact arithmetic, with `Math.pow` read as the real power function,
the task damage before the checklist discount, `|0.9747^clamp(value, -47.27, 21.27)|`, does
not increase with the task value: for `v1 ≤ v2` the damage at `v1` is at least the damage
at `v2`, it is strictly greater when `-47.27 ≤ v1 < v2 ≤ 21.27`, and it is always strictly
positive. -/
theorem C13_decay_monotone (task : Task ℝ) (v1 v2 : ℝ) (h : v1 ≤ v2) :
    rawTaskDamage Real.rpow { task with value := v2 } ≤
        rawTaskDamage Real.rpow { task with value := v1 } ∧
      (-47.27 ≤ v1 → v1 < v2 → v2 ≤ 21.27 →
        rawTaskDamage Real.rpow { task with value := v2 } <
          rawTaskDamage Real.rpow { task with value := v1 }) ∧
      0 < rawTaskDamage Real.rpow { task with value := v1 } := by
  have hb0 : (0 : ℝ) < 0.9747 := by norm_num
  have hb1 : (0.9747 : ℝ) < 1 := by norm_num
  have hraw : ∀ v : ℝ, rawTaskDamage Real.rpow { task with value := v } =
      (0.9747 : ℝ) ^ Spec.clampValue v := by
    intro v
    rw [rawTaskDamage_eq]
    unfold Spec.rawDamage
    exact abs_of_pos (Real.rpow_pos_of_pos hb0 _)
  rw [hraw v1, hraw v2]
  refine ⟨?_, ?_, ?_⟩
  · exact Real.rpow_le_rpow_of_exponent_ge hb0 hb1.le (clampValue_mono h)
  · intro hlo hlt hhi
    rw [clampValue_of_mem hlo (hlt.le.trans hhi), clampValue_of_mem (hlo.trans hlt.le) hhi]
    exact Real.rpow_lt_rpow_of_exponent_gt hb0 hb1 hlt
  · exact Real.rpow_pos_of_pos hb0 _

/-- C13 for the values 0 and 1 of a daily. -/
theorem C13_decay_monotone_witness :
    (0 : ℝ) ≤ 1 ∧ (-47.27 : ℝ) ≤ 0 ∧ (0 : ℝ) < 1 ∧ (1 : ℝ) ≤ 21.27 ∧
      rawTaskDamage Real.rpow
          { type := "daily", isDue := true, completed := false, value := (1 : ℝ),
            priority := 1, checklist := [], date := none } <
        rawTaskDamage Real.rpow
          { type := "daily", isDue := true, completed := false, value := (0 : ℝ),
            priority := 1, checklist := [], date := none } :=
  ⟨by norm_num, by norm_num, by norm_num, by norm_num,
    (C13_decay_monotone
      { type := "daily", isDue := true, completed := false, value := (0 : ℝ),
        priority := 1, checklist := [], date := none } 0 1 (by norm_num)).2.1
      (by norm_num) (by norm_num) (by norm_num)⟩

end DecayClaims

section StealthAndQuestClaims

variable {K : Type} [LinearOrderedField K] [FloorRing K]

open HabiticaUserTasksManager HabiticaUser

/-- The effect of one iteration on the stealth counter: it is decremented by one exactly
in the iterations that increment `dailiesEvaded`, which only happens on a due, incomplete
daily met with a positive counter. -/
theorem loopBody_stealthRemaining (pow : K → K → K) (user : HabiticaUser K)
    (s : LoopState K) (task : Task K) :
    (loopBody pow user s task).stealthRemaining =
        (if (loopBody pow user s task).stats.dailiesEvaded = s.stats.dailiesEvaded + 1 then
          s.stealthRemaining - 1
        else s.stealthRemaining) ∧
      ((loopBody pow user s task).stats.dailiesEvaded = s.stats.dailiesEvaded + 1 →
        Spec.inScope task = true ∧ 0 < s.stealthRemaining) := by
  cases hsc : Spec.inScope task with
  | false =>
    rw [loopBody_of_not_inScope pow user s task hsc]
    simp
  | true =>
    rcases lt_or_le 0 s.stealthRemaining with hs | hs
    · rw [loopBody_evade pow user s task hsc hs]
      simp [hs]
    · rw [loopBody_damage pow user s task hsc hs]
      simp

/-- C14: for every task list and every non-negative integer starting stealth count, the
remaining-stealth counter is non-negative after every iteration of the loop (after every
prefix of the task list it is the starting count less the number of dailies evaded so
far), and an iteration decrements it, by exactly 1, only when it evades a due incomplete
daily. -/
theorem C14_stealth_counter (pow : K → K → K) (tasks : List (Task K))
    (user : HabiticaUser K) (n : ℕ) (hs : user.stealth = (n : K)) :
    (∀ i : ℕ, 0 ≤ (runLoop pow user (tasks.take i)).stealthRemaining) ∧
      (∀ i : ℕ, (runLoop pow user (tasks.take i)).stealthRemaining =
        (n : K) - ((runLoop pow user (tasks.take i)).stats.dailiesEvaded : K)) ∧
      (∀ (s : LoopState K) (task : Task K),
        (loopBody pow user s task).stealthRemaining =
          (if (loopBody pow user s task).stats.dailiesEvaded = s.stats.dailiesEvaded + 1 then
            s.stealthRemaining - 1
          else s.stealthRemaining)) ∧
      (∀ (s : LoopState K) (task : Task K),
        (loopBody pow user s task).stats.dailiesEvaded = s.stats.dailiesEvaded + 1 →
          Spec.inScope task = true ∧ 0 < s.stealthRemaining) := by
  have hcap : Spec.stealthCapacity user.stealth = n := by
    rw [hs]; exact Nat.ceil_natCast n
  refine ⟨?_, ?_, ?_, ?_⟩
  · intro i
    rw [runLoop_eq, hcap, hs]
    simp only
    rw [sub_nonneg, Nat.cast_le]
    exact min_le_left _ _
  · intro i
    rw [runLoop_eq, hcap, hs]
  · intro s task
    exact (loopBody_stealthRemaining pow user s task).1
  · intro s task
    exact (loopBody_stealthRemaining pow user s task).2

/-- C14 for a user with stealth 1 and the list of a daily at the cap and a neglected
daily: the counter is 0 after both iterations. -/
theorem C14_stealth_counter_witness :
    Sample.stealthyUser.stealth = ((1 : ℕ) : ℚ) ∧
      0 ≤ (runLoop Sample.powStub Sample.stealthyUser
        ([Sample.capDaily, Sample.neglectedDaily].take 2)).stealthRemaining ∧
      ((loopBody Sample.powStub Sample.stealthyUser (initState Sample.stealthyUser)
          Sample.capDaily).stats.dailiesEvaded =
        (initState Sample.stealthyUser).stats.dailiesEvaded + 1) ∧
      Spec.inScope Sample.capDaily = true ∧
      0 < (initState Sample.stealthyUser).stealthRemaining :=
  have hs : Sample.stealthyUser.stealth = ((1 : ℕ) : ℚ) := by
    simp [HabiticaUser.stealth, Sample.stealthyUser, Sample.userWith]
  have h := C14_stealth_counter Sample.powStub [Sample.capDaily, Sample.neglectedDaily]
    Sample.stealthyUser 1 hs
  have hev : (loopBody Sample.powStub Sample.stealthyUser (initState Sample.stealthyUser)
      Sample.capDaily).stats.dailiesEvaded =
        (initState Sample.stealthyUser).stats.dailiesEvaded + 1 := by
    simp [loopBody, initState, Sample.capDaily, Sample.daily, HabiticaUser.stealth,
      Sample.stealthyUser, Sample.userWith]
  ⟨hs, h.1 2, hev, (h.2.2.2 _ _ hev).1, (h.2.2.2 _ _ hev).2⟩

/-- C15: `isOnBossQuest` is true exactly when the quest of the user has resolved data and
that data has a boss; it is false exactly when there is no quest data or the quest has no
boss, and for every such user and every task list `calculateDailyStatsFor` yields
`bossDamage = 0`. -/
theorem C15_boss_quest (pow : K → K → K) (m : HabiticaUserTasksManager K)
    (user : HabiticaUser K) :
    (user.isOnBossQuest = true ↔
        ∃ (q : QuestData K) (b : Boss K), user.quest.data = some q ∧ q.boss = some b) ∧
      (user.isOnBossQuest = false ↔
        user.quest.data = none ∨ user.quest.data = some { boss := none }) ∧
      (user.isOnBossQuest = false →
        (calculateDailyStatsFor pow m user).dailyStats.map DailyStats.bossDamage = some 0) := by
  refine ⟨isOnBossQuest_iff user, ?_, ?_⟩
  · unfold isOnBossQuest isOnQuest
    cases hd : user.quest.data with
    | none => simp
    | some q =>
      cases q with
      | mk boss =>
        cases boss with
        | none => simp
        | some b => simp
  · intro hb
    rw [dailyStats_eq, runLoop_eq]
    have hfun : bossContribution pow user = fun _ => (0 : K) := by
      funext task
      unfold bossContribution
      simp [hb]
    simp [finish, ceilTenth, hfun]

/-- C15 for a user without quest data and for a user on a quest without a boss. -/
theorem C15_boss_quest_witness :
    Sample.plainUser.isOnBossQuest = false ∧
      (calculateDailyStatsFor Sample.powStub ⟨[Sample.capDaily], none⟩
        Sample.plainUser).dailyStats.map DailyStats.bossDamage = some 0 ∧
      Sample.collectionQuestUser.isOnBossQuest = false ∧
      (calculateDailyStatsFor Sample.powStub ⟨[Sample.capDaily], none⟩
        Sample.collectionQuestUser).dailyStats.map DailyStats.bossDamage = some 0 :=
  ⟨rfl,
    (C15_boss_quest Sample.powStub ⟨[Sample.capDaily], none⟩ Sample.plainUser).2.2 rfl,
    rfl,
    (C15_boss_quest Sample.powStub ⟨[Sample.capDaily], none⟩
      Sample.collectionQuestUser).2.2 rfl⟩

end StealthAndQuestClaims

/-! ## The claims in exact arithmetic about the discount, the total and constitution -/

section DiscountClaims

variable {K : Type} [LinearOrderedField K]

open HabiticaUserTasksManager

/-- C17: in exact arithmetic, for every daily with a checklist of `n > 0` entries of which
`k` are completed, the task damage after the checklist discount is
`rawDamage * (n - k) / n`; it lies between `0` and `rawDamage` inclusive, so the
per-entry subtraction never makes the damage negative. -/
theorem C17_checklist_discount (pow : K → K → K) (task : Task K) (n k : ℕ)
    (hn : task.checklist.length = n) (hpos : 0 < n)
    (hk : Spec.completedCount task.checklist = k) :
    taskDamage pow task = rawTaskDamage pow task * ((n : K) - (k : K)) / (n : K) ∧
      0 ≤ taskDamage pow task ∧ taskDamage pow task ≤ rawTaskDamage pow task := by
  subst hn
  subst hk
  exact ⟨taskDamage_eq_share pow task hpos, taskDamage_bounds pow task⟩

/-- C17 for the sample daily with three checklist entries, two of them completed. -/
theorem C17_checklist_discount_witness :
    Sample.partlyCheckedDaily.checklist.length = 3 ∧ 0 < 3 ∧
      Spec.completedCount Sample.partlyCheckedDaily.checklist = 2 ∧
      taskDamage Sample.powStub Sample.partlyCheckedDaily =
        rawTaskDamage Sample.powStub Sample.partlyCheckedDaily *
          (((3 : ℕ) : ℚ) - ((2 : ℕ) : ℚ)) / ((3 : ℕ) : ℚ) :=
  ⟨rfl, by decide, by decide,
    (C17_checklist_discount Sample.powStub Sample.partlyCheckedDaily 3 2 rfl (by decide)
      (by decide)).1⟩

end DiscountClaims

section TotalsClaims

variable {K : Type} [LinearOrderedField K] [FloorRing K]

open HabiticaUserTasksManager HabiticaUser

/-- C16: in exact arithmetic, for every user and task list the reported fields satisfy
`totalDamageToSelf = dailyDamageToSelf + bossDamage`, with `bossDamage` the reported,
rounded-up value: `dailyDamageToSelf` is an integer number of tenths, so rounding the sum
up is adding the rounded-up boss damage. -/
theorem C16_total_is_sum (pow : K → K → K) (m : HabiticaUserTasksManager K)
    (user : HabiticaUser K) :
    (calculateDailyStatsFor pow m user).dailyStats.map DailyStats.totalDamageToSelf =
        (calculateDailyStatsFor pow m user).dailyStats.map
          (fun stats => stats.dailyDamageToSelf + stats.bossDamage) ∧
      (∃ z : ℤ,
        (calculateDailyStatsFor pow m user).dailyStats.map DailyStats.dailyDamageToSelf =
          some ((z : K) / 10)) := by
  obtain ⟨z, hz⟩ := sum_selfContribution_tenths pow user
    (Spec.damagedDailies user.stealth m.taskList)
  constructor
  · rw [dailyStats_eq, runLoop_eq]
    simp only [finish, Option.map_some', hz]
    rw [ceilTenth_tenths_add]
  · refine ⟨z, ?_⟩
    rw [dailyStats_eq, runLoop_eq]
    simp only [finish, Option.map_some', hz]

/-- C18, as amended: in exact arithmetic, for every task list in which all priorities are
non-negative and every two users with the same stealth count and the same quest whose
total constitutions satisfy
`c1 ≤ c2`, the `dailyDamageToSelf` computed for the user with `c2` is at most the one
computed for the user with `c1`, while `dueCount`, `dailiesEvaded` and `bossDamage` are
the same for both. -/
theorem C18_constitution_monotone (pow : K → K → K) (m : HabiticaUserTasksManager K)
    (u1 u2 : HabiticaUser K) (hprio : ∀ task ∈ m.taskList, 0 ≤ task.priority)
    (hst : u1.stealth = u2.stealth) (hq : u1.quest = u2.quest)
    (hcon : u1.stats.totals.con ≤ u2.stats.totals.con) :
    ∃ s1 s2 : DailyStats K,
      (calculateDailyStatsFor pow m u1).dailyStats = some s1 ∧
        (calculateDailyStatsFor pow m u2).dailyStats = some s2 ∧
        s2.dailyDamageToSelf ≤ s1.dailyDamageToSelf ∧
        s2.dueCount = s1.dueCount ∧ s2.dailiesEvaded = s1.dailiesEvaded ∧
        s2.bossDamage = s1.bossDamage := by
  refine ⟨_, _, dailyStats_eq pow m u1, dailyStats_eq pow m u2, ?_, ?_, ?_, ?_⟩
  · rw [runLoop_eq, runLoop_eq, hst]
    simp only [finish]
    apply List.sum_le_sum
    intro task hmem
    unfold selfContribution
    apply roundTenth_mono
    have htd := (taskDamage_bounds pow task).1
    have hp := hprio task (mem_of_mem_damagedDailies hmem)
    have hb := constitutionBonus_anti u1 u2 hcon
    have h1 : taskDamage pow task * u2.constitutionBonus ≤
        taskDamage pow task * u1.constitutionBonus := mul_le_mul_of_nonneg_left hb htd
    have h2 := mul_le_mul_of_nonneg_right h1 hp
    exact mul_le_mul_of_nonneg_right h2 (by norm_num)
  · rw [runLoop_eq, runLoop_eq, hst]
    rfl
  · rw [runLoop_eq, runLoop_eq, hst]
    rfl
  · rw [runLoop_eq, runLoop_eq, hst]
    simp only [finish]
    have hfun : bossContribution pow u2 = bossContribution pow u1 :=
      funext (fun task => (bossContribution_congr pow u1 u2 hq task).symm)
    rw [hfun]

/-- C18 for the sample users of total constitution 0 and 250 and the daily at the cap. -/
theorem C18_constitution_monotone_witness :
    (∀ task ∈ HabiticaUserTasksManager.taskList
        (⟨[Sample.capDaily], none⟩ : HabiticaUserTasksManager ℚ), 0 ≤ task.priority) ∧
      Sample.plainUser.stealth = Sample.sturdyUser.stealth ∧
      Sample.plainUser.quest = Sample.sturdyUser.quest ∧
      Sample.plainUser.stats.totals.con ≤ Sample.sturdyUser.stats.totals.con ∧
      (∃ s1 s2 : DailyStats ℚ,
        (calculateDailyStatsFor Sample.powStub ⟨[Sample.capDaily], none⟩
            Sample.plainUser).dailyStats = some s1 ∧
          (calculateDailyStatsFor Sample.powStub ⟨[Sample.capDaily], none⟩
            Sample.sturdyUser).dailyStats = some s2 ∧
          s2.dailyDamageToSelf ≤ s1.dailyDamageToSelf ∧
          s2.dueCount = s1.dueCount ∧ s2.dailiesEvaded = s1.dailiesEvaded ∧
          s2.bossDamage = s1.bossDamage) :=
  have hprio : ∀ task ∈ HabiticaUserTasksManager.taskList
      (⟨[Sample.capDaily], none⟩ : HabiticaUserTasksManager ℚ), 0 ≤ task.priority := by
    intro task hmem
    simp only [HabiticaUserTasksManager.taskList, List.mem_singleton] at hmem
    rw [hmem]
    simp [Sample.capDaily, Sample.daily]
  have hcon : Sample.plainUser.stats.totals.con ≤ Sample.sturdyUser.stats.totals.con := by
    simp [HabiticaUser.stats, HabiticaUser._calculateStats, Sample.plainUser,
      Sample.sturdyUser, Sample.userWith, HabiticaUser.armor, HabiticaUser.level]
  ⟨hprio, rfl, rfl, hcon,
    C18_constitution_monotone Sample.powStub ⟨[Sample.capDaily], none⟩ Sample.plainUser
      Sample.sturdyUser hprio rfl rfl hcon⟩

end TotalsClaims

/-! ## The rejected readings in double precision -/

section RealLemmas

/-- A power of a base in `(0, 1]` with a small non-negative exponent stays close to one. -/
theorem rpow_near_one (b x : ℝ) (hb0 : 0 < b) (hb1 : b ≤ 1) (hx : 0 ≤ x) :
    1 - x * (b⁻¹ - 1) ≤ b ^ x ∧ b ^ x ≤ 1 := by
  constructor
  · rw [Real.rpow_def_of_pos hb0]
    have h1 : 1 - b⁻¹ ≤ Real.log b := Real.one_sub_inv_le_log_of_pos hb0
    have h2 : (1 - b⁻¹) * x ≤ Real.log b * x := mul_le_mul_of_nonneg_right h1 hx
    have h3 := Real.add_one_le_exp (Real.log b * x)
    linarith
  · exact Real.rpow_le_one hb0.le hb1 hx

end RealLemmas

/-- C11 as stated fails in double precision: for a rogue wearing three items of strength
0.1, 0.2 and 0.3, `_calculateStats` returns the armor strength `0.6000000000000001`, and on
the same entries in the opposite order it returns `0.6`, so the two Stats differ. -/
theorem C11_gear_order_binary64 :
    List.Perm Sample.fractionalUser.apiData.equipped Sample.reversedGear ∧
      (Binary64._calculateStats Sample.fractionalUser).armor.str =
        1351079888211149 / 2251799813685248 ∧
      (Binary64._calculateStats
          { apiData :=
              { Sample.fractionalUser.apiData with equipped := Sample.reversedGear } }).armor.str =
        5404319552844595 / 9007199254740992 ∧
      Binary64._calculateStats
          { apiData :=
              { Sample.fractionalUser.apiData with equipped := Sample.reversedGear } } ≠
        Binary64._calculateStats Sample.fractionalUser := by
  have h1 : (Binary64._calculateStats Sample.fractionalUser).armor.str =
      1351079888211149 / 2251799813685248 := by decide!
  have h2 : (Binary64._calculateStats
      { apiData :=
          { Sample.fractionalUser.apiData with equipped := Sample.reversedGear } }).armor.str =
      5404319552844595 / 9007199254740992 := by decide!
  have hperm : List.Perm Sample.fractionalUser.apiData.equipped Sample.reversedGear := by
    show List.Perm (List.reverse Sample.reversedGear) Sample.reversedGear
    exact List.reverse_perm _
  refine ⟨hperm, h1, h2, ?_⟩
  intro heq
  rw [heq, h1] at h2
  exact absurd h2 (by decide!)

/-- C13 as stated fails in double precision: the task values `0` and the double nearest to
`10^-17` lie between the caps and differ, but the real powers of the base at both exponents
round to the double `1`, which is what the stand-in for `Math.pow` returns, so the task
damage before the checklist discount is `1` for both and not strictly greater for the
smaller value. -/
theorem C13_decay_not_strict_binary64 :
    Binary64.toBinary64 (-47.27) ≤ Sample.freshDaily.value ∧
      Sample.freshDaily.value < Sample.barelyValuedDaily.value ∧
      Sample.barelyValuedDaily.value ≤ Binary64.toBinary64 21.27 ∧
      Binary64.roundsToOne
        (((Binary64.toBinary64 0.9747 : ℚ) : ℝ) ^ ((Sample.freshDaily.value : ℚ) : ℝ)) ∧
      Binary64.roundsToOne
        (((Binary64.toBinary64 0.9747 : ℚ) : ℝ) ^
          ((Sample.barelyValuedDaily.value : ℚ) : ℝ)) ∧
      Sample.powStub (Binary64.toBinary64 0.9747) Sample.freshDaily.value = 1 ∧
      Sample.powStub (Binary64.toBinary64 0.9747) Sample.barelyValuedDaily.value = 1 ∧
      Binary64.rawTaskDamage Sample.powStub Sample.freshDaily = 1 ∧
      Binary64.rawTaskDamage Sample.powStub Sample.barelyValuedDaily = 1 ∧
      ¬ (Binary64.rawTaskDamage Sample.powStub Sample.barelyValuedDaily <
        Binary64.rawTaskDamage Sample.powStub Sample.freshDaily) := by
  have hb : Binary64.toBinary64 0.9747 = 8779317113596045 / 9007199254740992 := by decide!
  have hv0 : Sample.freshDaily.value = 0 := rfl
  have hv1 : Sample.barelyValuedDaily.value =
      6490371073168535 / 649037107316853453566312041152512 := by decide!
  refine ⟨by decide!, by decide!, by decide!, ?_, ?_, rfl, rfl, by decide!, by decide!,
    by decide!⟩
  · rw [hv0]
    unfold Binary64.roundsToOne
    simp only [Rat.cast_zero, Real.rpow_zero]
    norm_num
  · rw [hb, hv1]
    unfold Binary64.roundsToOne
    have h := rpow_near_one
      (((8779317113596045 / 9007199254740992 : ℚ) : ℝ))
      (((6490371073168535 / 649037107316853453566312041152512 : ℚ) : ℝ))
      (by norm_num) (by norm_num) (by norm_num)
    constructor
    · refine lt_of_lt_of_le ?_ h.1
      norm_num
    · refine lt_of_le_of_lt h.2 ?_
      norm_num

/-- C18 as stated fails in double precision: for a daily of value 0 and priority `10^16`
whose nine checklist entries are all completed, the task damage after the checklist
discount is `-3 * 2^-54`, and `dailyDamageToSelf` is the double `-3.3` for the user of
total constitution 0 and the double `-0.3` for the user of total constitution 250, with
the same stealth and quest: more constitution gives the larger value. -/
theorem C18_constitution_binary64 :
    (∀ task ∈ HabiticaUserTasksManager.taskList
        (⟨[Sample.heavyCheckedDaily], none⟩ : HabiticaUserTasksManager ℚ),
        0 ≤ task.priority) ∧
      Sample.plainUser.stealth = Sample.sturdyUser.stealth ∧
      Sample.plainUser.quest = Sample.sturdyUser.quest ∧
      (Binary64._calculateStats Sample.plainUser).totals.con = 0 ∧
      (Binary64._calculateStats Sample.sturdyUser).totals.con = 250 ∧
      Binary64.taskDamage Sample.powStub Sample.heavyCheckedDaily = -3 / 2 ^ 54 ∧
      (Binary64.calculateDailyStatsFor Sample.powStub ⟨[Sample.heavyCheckedDaily], none⟩
          Sample.plainUser).dailyStats.map DailyStats.dailyDamageToSelf =
        some (Binary64.toBinary64 (-33 / 10)) ∧
      (Binary64.calculateDailyStatsFor Sample.powStub ⟨[Sample.heavyCheckedDaily], none⟩
          Sample.sturdyUser).dailyStats.map DailyStats.dailyDamageToSelf =
        some (Binary64.toBinary64 (-3 / 10)) ∧
      ¬ (Binary64.toBinary64 (-3 / 10) ≤ Binary64.toBinary64 (-33 / 10)) :=
  ⟨by decide!, rfl, rfl, by decide!, by decide!, by decide!, by decide!, by decide!,
    by decide!⟩

end HabiticaMagic
